import Mathlib

/-!
# Verification development for the utility-VM provisioning core

Shallow embedding of

* `cmd/containerd-shim-runhcs-v1/update_options.go` (`UpdateSpecFromOptions`),
* `internal/vm/remotevm/stats.go` (`utilityVM.Stats`),
* the tables and checks of `internal/security/grantvmgroupaccess_test.go` and the
  inputs of `internal/oci/uvm_test.go`.

The functions these tests call (`GrantVmGroupAccessWithMask`,
`SpecToUVMCreateOpts`, the default options) are not among the sources; they are
modelled from the design document, each such definition saying so.

Go maps of type `map[string]string` are embedded as association lists read
through `List.lookup`; the nil map is `none`.  A comma-ok read of a nil map
reports the key as absent, an assignment into a nil map is a run-time failure.
Two maps are the same map when neither or both are nil and every key reads the
same in both.
-/

set_option autoImplicit false

namespace Hcsshim

/-! ## Go maps -/

/-- The entries of a non-nil `map[string]string`. -/
abbrev Entries := List (String × String)

/-- A value of type `map[string]string`: `none` is the nil map. -/
abbrev GoMap := Option Entries

/-- Run-time failures of the embedded code. -/
inductive Panic where
  /-- The failure "assignment to entry in nil map". -/
  | assignmentToEntryInNilMap
  deriving DecidableEq, Repr

/-- The comma-ok read `v, ok := m[k]`: `some v` when `ok`, `none` otherwise.
Reading a nil map finds nothing. -/
def GoMap.get (m : GoMap) (k : String) : Option String :=
  match m with
  | none => none
  | some es => es.lookup k

/-- The entries after `m[k] = v` on a non-nil map: the value of an existing key
is replaced, a new key is added. -/
def Entries.assign (k v : String) : Entries → Entries
  | [] => [(k, v)]
  | (k', v') :: es => if k' = k then (k, v) :: es else (k', v') :: Entries.assign k v es

/-- The assignment `m[k] = v`; it fails on the nil map. -/
def GoMap.assign (m : GoMap) (k v : String) : Except Panic GoMap :=
  match m with
  | none => .error .assignmentToEntryInNilMap
  | some es => .ok (some (Entries.assign k v es))

/-- The entries a `range` loop over the map visits, in visiting order; the nil
map has none. -/
def GoMap.range (m : GoMap) : Entries :=
  match m with
  | none => []
  | some es => es

/-- The keys of a list of entries. -/
def Entries.keys (es : Entries) : List String := es.map Prod.fst

/-- Two maps are the same: both nil or both non-nil, and equal at every key. -/
def GoMap.Same (m₁ m₂ : GoMap) : Prop :=
  (m₁.isSome = m₂.isSome) ∧ ∀ k, m₁.get k = m₂.get k

/-! ## The OCI spec, the shim options and the annotation keys -/

/-- The four constants of package `annotations` that `UpdateSpecFromOptions`
uses.  Their declarations are outside the embedded sources, so the code is
embedded for arbitrary values of them. -/
structure AnnotationKeys where
  BootFilesRootPath : String
  ProcessorCount : String
  MemorySizeInMB : String
  NetworkConfigProxy : String
  deriving DecidableEq, Repr

/-- The four annotation keys are pairwise different. -/
def AnnotationKeys.Distinct (K : AnnotationKeys) : Prop :=
  K.BootFilesRootPath ≠ K.ProcessorCount ∧ K.BootFilesRootPath ≠ K.MemorySizeInMB ∧
  K.BootFilesRootPath ≠ K.NetworkConfigProxy ∧ K.ProcessorCount ≠ K.MemorySizeInMB ∧
  K.ProcessorCount ≠ K.NetworkConfigProxy ∧ K.MemorySizeInMB ≠ K.NetworkConfigProxy

instance (K : AnnotationKeys) : Decidable K.Distinct := by
  unfold AnnotationKeys.Distinct; infer_instance

/-- The fields of `runhcsopts.Options` that `UpdateSpecFromOptions` reads.  The
two numeric fields have Go type `int32`; see `IsInt32`. -/
structure Options where
  BootFilesRootPath : String
  VmProcessorCount : Int
  VmMemorySizeInMb : Int
  NCProxyAddr : String
  DefaultContainerAnnotations : GoMap
  deriving DecidableEq, Repr

/-- The value range of Go's `int32`. -/
def IsInt32 (n : Int) : Prop := -2147483648 ≤ n ∧ n ≤ 2147483647

instance (n : Int) : Decidable (IsInt32 n) := by unfold IsInt32; infer_instance

/-- The `specs.Spec` value: the annotation map, the two guest-family
descriptors (a nil pointer is `none`) and, in `rest`, all remaining fields. -/
structure Spec (Linux Windows Rest : Type) where
  Annotations : GoMap
  Linux : Option Linux
  Windows : Option Windows
  rest : Rest

/-! ## `strconv` -/

/-- The decimal digits of `n`, most significant first, put in front of `acc`;
`fuel` bounds the number of digits. -/
def decimalDigits : Nat → Nat → List Char → List Char
  | 0, _, acc => acc
  | fuel + 1, n, acc =>
    let acc' := Char.ofNat (48 + n % 10) :: acc
    if n / 10 = 0 then acc' else decimalDigits fuel (n / 10) acc'

/-- The decimal representation of a natural number (`"0"` for zero). -/
def formatUint (n : Nat) : List Char := decimalDigits (n + 1) n []

/-- The call `strconv.FormatInt(i, 10)`: a minus sign for a negative number,
then the decimal digits of its magnitude. -/
def FormatInt (i : Int) : String :=
  if i < 0 then String.mk ('-' :: formatUint i.natAbs) else String.mk (formatUint i.natAbs)

/-- The value of a string of decimal digits read after the value `acc`; `none`
when a character is not a decimal digit. -/
def parseDigits : List Char → Nat → Option Nat
  | [], acc => some acc
  | c :: cs, acc =>
    if 48 ≤ c.toNat ∧ c.toNat ≤ 57 then parseDigits cs (acc * 10 + (c.toNat - 48)) else none

/-- The unsigned part of `strconv.ParseInt`: a non-empty string of decimal
digits. -/
def parseUint (cs : List Char) : Option Nat :=
  match cs with
  | [] => none
  | _ :: _ => parseDigits cs 0

/-- The call `strconv.ParseInt(s, 10, 64)`, `none` for an error: an optional
sign, then a non-empty string of decimal digits, the value within the range of
`int64`. -/
def ParseInt (s : String) : Option Int :=
  match s.data with
  | [] => none
  | c :: cs =>
    if c = '-' then
      match parseUint cs with
      | some u => if u ≤ 9223372036854775808 then some (-(u : Int)) else none
      | none => none
    else
      match parseUint (if c = '+' then cs else c :: cs) with
      | some u => if u < 9223372036854775808 then some (u : Int) else none
      | none => none

/-! ## `UpdateSpecFromOptions` -/

/-- The statement `if _, ok := m[key]; !ok && c { m[key] = v }`: the key is
assigned only when the map does not have it and the guard `c` holds. -/
def guardedAssign (c : Prop) [Decidable c] (key v : String) (m : GoMap) : Except Panic GoMap :=
  if (GoMap.get m key).isNone ∧ c then GoMap.assign m key v else .ok m

/-- The `range` loop `for key, value := range ds { if _, ok := m[key]; !ok { m[key] = value } }`
over the entries `ds` in visiting order. -/
def rangeLoop : Entries → GoMap → Except Panic GoMap
  | [], m => .ok m
  | e :: es, m =>
    match guardedAssign True e.1 e.2 m with
    | .error p => .error p
    | .ok m' => rangeLoop es m'

/-- The annotation map of the spec after the body of `UpdateSpecFromOptions`
for non-nil options `opts`: the four guarded assignments in source order, then
the `range` loop.  The conversion `int64(·)` of an `int32` field keeps its
value, so the field value itself is formatted. -/
def updateAnnotations (K : AnnotationKeys) (m : GoMap) (opts : Options) : Except Panic GoMap := do
  let m ← guardedAssign (opts.BootFilesRootPath ≠ "") K.BootFilesRootPath opts.BootFilesRootPath m
  let m ← guardedAssign (opts.VmProcessorCount ≠ 0) K.ProcessorCount
    (FormatInt opts.VmProcessorCount) m
  let m ← guardedAssign (opts.VmMemorySizeInMb ≠ 0) K.MemorySizeInMB
    (FormatInt opts.VmMemorySizeInMb) m
  let m ← guardedAssign (opts.NCProxyAddr ≠ "") K.NetworkConfigProxy opts.NCProxyAddr m
  rangeLoop (GoMap.range opts.DefaultContainerAnnotations) m

/-- The function `UpdateSpecFromOptions(s, opts)`; nil options are `none`.  The
result is the returned spec, or the run-time failure the call ends in. -/
def UpdateSpecFromOptions {L W R : Type} (K : AnnotationKeys) (s : Spec L W R)
    (opts : Option Options) : Except Panic (Spec L W R) :=
  match opts with
  | none => .ok s
  | some o =>
    match updateAnnotations K s.Annotations o with
    | .error p => .error p
    | .ok m => .ok { s with Annotations := m }

/-! ## The effect of `UpdateSpecFromOptions` on a non-nil map -/

/-- The guarded assignment `if _, ok := m[key]; !ok && c { m[key] = v }` on the
entries of a non-nil map. -/
def Entries.setWhen (c : Prop) [Decidable c] (key v : String) (es : Entries) : Entries :=
  if (es.lookup key).isNone ∧ c then Entries.assign key v es else es

/-- The `range` loop on the entries of a non-nil map. -/
def Entries.merge : Entries → Entries → Entries
  | [], es => es
  | d :: ds, es => Entries.merge ds (Entries.setWhen True d.1 d.2 es)

/-- The body of `UpdateSpecFromOptions` on the entries of a non-nil map. -/
def Entries.update (K : AnnotationKeys) (o : Options) (es : Entries) : Entries :=
  Entries.merge (GoMap.range o.DefaultContainerAnnotations)
    (Entries.setWhen (o.NCProxyAddr ≠ "") K.NetworkConfigProxy o.NCProxyAddr
      (Entries.setWhen (o.VmMemorySizeInMb ≠ 0) K.MemorySizeInMB (FormatInt o.VmMemorySizeInMb)
        (Entries.setWhen (o.VmProcessorCount ≠ 0) K.ProcessorCount (FormatInt o.VmProcessorCount)
          (Entries.setWhen (o.BootFilesRootPath ≠ "") K.BootFilesRootPath o.BootFilesRootPath es))))

/-- What a guarded assignment offers to the key `k`: the value `v` when the
guard `c` holds and `k` is the assigned key. -/
def offer (c : Prop) [Decidable c] (key v k : String) : Option String :=
  if c ∧ k = key then some v else none

/-! ## `utilityVM.Stats` of the remote backend -/

/-- The error values that occur: the one of package `vm` and the two
cancellation errors of package `context`. -/
inductive GoError where
  | notSupported
  | canceled
  | deadlineExceeded
  deriving DecidableEq, Repr

/-- A value of Go's type `error`; the nil error is `none`. -/
abbrev error := Option GoError

/-- Modelled from the spec: the variable `vm.ErrNotSupported`, whose
declaration is outside the embedded sources.  The spec calls it "a
distinguished `NotSupported` error value": a non-nil error that is none of the
errors of package `context`. -/
def vm.ErrNotSupported : error := some GoError.notSupported

/-- The error `context.Canceled`. -/
def context.Canceled : error := some GoError.canceled

/-- The error `context.DeadlineExceeded`. -/
def context.DeadlineExceeded : error := some GoError.deadlineExceeded

/-- A `context.Context`, as far as its cancellation goes: `Err` is what
`ctx.Err()` reports, nil while the context is live. -/
structure Context where
  Err : error
  deriving DecidableEq, Repr

/-- An error that reports the cancellation of a context. -/
def IsCancellation (e : error) : Prop :=
  e = context.Canceled ∨ e = context.DeadlineExceeded

instance (e : error) : Decidable (IsCancellation e) := by
  unfold IsCancellation; infer_instance

/-- The method `(uvm *utilityVM) Stats(ctx)` of package `remotevm`.  The
receiver is a pointer (`none` is nil) to a `utilityVM`, whose fields the method
does not read; the result is the returned pair of a statistics pointer and an
error. -/
def utilityVM.Stats {UVM Statistics : Type} (_uvm : Option UVM) (_ctx : Context) :
    Except Panic (Option Statistics × error) :=
  .ok (none, vm.ErrNotSupported)

/-! ## The permission model and the grant engine (package `security`)

Of package `security` the sources hold the tests only.  The named masks, the
validation and the grant are modelled from the design document; the tables and
the checks of the tests are embedded from `grantvmgroupaccess_test.go`. -/

/-- Modelled from the spec: the named values of the type `accessMask`, whose
declarations are outside the embedded sources: the three permission bits and
the convenience value `AccessMaskAll`.  Their numeric values are not given, so
they are arbitrary here. -/
structure AccessMasks where
  AccessMaskRead : Nat
  AccessMaskWrite : Nat
  AccessMaskExecute : Nat
  AccessMaskAll : Nat
  deriving DecidableEq, Repr

/-- The recognised permission bits: the bits of the named values.  Where
`AccessMaskAll` is the union of the three bits these are the bits of the three;
the tests grant `AccessMaskAll` as a value of its own, so its bits count as
recognised in any case. -/
def AccessMasks.recognized (c : AccessMasks) : Nat :=
  c.AccessMaskRead ||| c.AccessMaskWrite ||| c.AccessMaskExecute ||| c.AccessMaskAll

/-- Modelled from the spec: the validation of a mask, whose code is outside the
embedded sources.  "A mask is valid iff it is non-zero, entirely composed of
the recognized bits ... and contains no bit outside": here no bit outside the
recognised bits. -/
def AccessMasks.Valid (c : AccessMasks) (m : Nat) : Prop :=
  m ≠ 0 ∧ m &&& c.recognized = m

instance (c : AccessMasks) (m : Nat) : Decidable (c.Valid m) := by
  unfold AccessMasks.Valid; infer_instance

/-- The constant `vmAccountSID` of the tests: the fixed VM-group principal. -/
def vmAccountSID : String := "S-1-5-83-0"

/-- Modelled from the spec: an access-control entry, "one (principal, access
mask, inheritance flags) triple", with the mark of an entry that was received
by inheritance. -/
structure ACE where
  principal : String
  mask : Nat
  objectInherit : Bool
  containerInherit : Bool
  inheritOnly : Bool
  inherited : Bool
  deriving DecidableEq, Repr

/-- Modelled from the spec: a filesystem object as the grant sees it: whether
it is a directory, the entries of its access-control list, and whether the
system lets the caller update its security descriptor. -/
structure Object where
  isDir : Bool
  dacl : List ACE
  descriptorWritable : Bool
  deriving DecidableEq, Repr

/-- Modelled from the spec: the error kinds of the grant. -/
inductive GrantError where
  | InvalidMask
  | PathUnavailable
  | GrantFailed
  deriving DecidableEq, Repr

/-- The non-inheritable entry for the VM group: it applies to the object
itself. -/
def explicitEntry (access : Nat) : ACE :=
  { principal := vmAccountSID, mask := access, objectInherit := false,
    containerInherit := false, inheritOnly := false, inherited := false }

/-- The inheritable entry for the VM group: object inherit, container inherit,
inherit only. -/
def inheritableEntry (access : Nat) : ACE :=
  { principal := vmAccountSID, mask := access, objectInherit := true,
    containerInherit := true, inheritOnly := true, inherited := false }

/-- Modelled from the spec: the entries the grant leaves on the object (step 4
of the grant): two for a directory, one for a file, with the masks as the tests
list them.  The entry that applies to the object itself carries `encode m`, the
translation of the requested mask into the rights of the object (listed `(R)`,
`(W,Rc)`, `(Rc,S,X,RA)`, ...); the inherit-only entry of a directory keeps the
requested mask `m` (listed as the generic rights `(GR)`, `(GW)`, `(GE)`, ...).
The spec gives both entries "the same mask"; the directory table of the tests
lists different rights on the two. -/
def grantEntries (encode : Nat → Nat) (isDir : Bool) (m : Nat) : List ACE :=
  if isDir then [explicitEntry (encode m), inheritableEntry m]
  else [explicitEntry (encode m)]

/-- Modelled from the spec: the merge of new entries into an access-control
list (step 5): existing entries are kept in place, a new entry is appended
unless the list has it already. -/
def mergeEntries : List ACE → List ACE → List ACE
  | dacl, [] => dacl
  | dacl, e :: es => mergeEntries (if e ∈ dacl then dacl else dacl ++ [e]) es

/-- Modelled from the spec: the function `GrantVmGroupAccessWithMask`, whose
code is outside the embedded sources, following the steps of the grant.
`target` is the object the path denotes, `none` when the path cannot be
inspected.  The result is the object after the grant, or the error. -/
def GrantVmGroupAccessWithMask (c : AccessMasks) (encode : Nat → Nat) (target : Option Object)
    (m : Nat) : Except GrantError Object :=
  if c.Valid m then
    match target with
    | none => .error .PathUnavailable
    | some o =>
      if o.descriptorWritable then
        .ok { o with dacl := mergeEntries o.dacl (grantEntries encode o.isDir m) }
      else .error .GrantFailed
  else .error .InvalidMask

/-- The entries of an access-control list that are for the VM group. -/
def vmEntries (dacl : List ACE) : List ACE :=
  dacl.filter (fun e => e.principal == vmAccountSID)

/-- Modelled from the spec: what a file inside a directory receives from an
entry of the directory: an object-inherit entry is passed on with its
principal, marked as inherited and no longer inheritable.  The entry then
applies to the file itself, so its mask is translated into the rights of the
object: the tests list `(I)(R)` on the file where the directory has
`(OI)(CI)(IO)(GR)`. -/
def inheritedByFile (encode : Nat → Nat) (e : ACE) : Option ACE :=
  if e.objectInherit then
    some { e with mask := encode e.mask, objectInherit := false, containerInherit := false,
                  inheritOnly := false, inherited := true }
  else none

/-- The entries a file inside the directory `dir` shows by inheritance. -/
def fileInside (encode : Nat → Nat) (dir : Object) : List ACE :=
  dir.dacl.filterMap (inheritedByFile encode)

/-- A file as `os.Create` leaves it in a temporary directory: some entries for
other principals, none for the VM group. -/
def newFile (others : List ACE) : Object :=
  { isDir := false, dacl := others.filter (fun e => e.principal != vmAccountSID),
    descriptorWritable := true }

/-- A directory as `t.TempDir()` leaves it: some entries for other principals,
none for the VM group. -/
def newDir (others : List ACE) : Object :=
  { isDir := true, dacl := others.filter (fun e => e.principal != vmAccountSID),
    descriptorWritable := true }

/-- The table of `TestGrantVMGroupAccess_File_DesiredPermissions`: the name of
the case, the desired access and the expected permissions. -/
def filePermissionCases (c : AccessMasks) : List (String × Nat × List String) :=
  [ ("Read", c.AccessMaskRead, ["(R)"]),
    ("Write", c.AccessMaskWrite, ["(W,Rc)"]),
    ("Execute", c.AccessMaskExecute, ["(Rc,S,X,RA)"]),
    ("ReadWrite", c.AccessMaskRead ||| c.AccessMaskWrite, ["(R,W)"]),
    ("ReadExecute", c.AccessMaskRead ||| c.AccessMaskExecute, ["(RX)"]),
    ("WriteExecute", c.AccessMaskWrite ||| c.AccessMaskExecute, ["(W,Rc,X,RA)"]),
    ("ReadWriteExecute", c.AccessMaskRead ||| c.AccessMaskWrite ||| c.AccessMaskExecute,
      ["(RX,W)"]),
    ("All", c.AccessMaskAll, ["(F)"]) ]

/-- The check `verifyVMAccountDACLs`: for each expected permission string the
listing of the object has exactly one match of the VM-group principal followed
by `:` and the string.  `icacls` gives, for an entry, the text the listing
prints after its principal; a line matches when it is a line of the VM group
and that text starts with the expected string. -/
def verifyVMAccountDACLs (icacls : ACE → String) (dacl : List ACE)
    (permissions : List String) : Bool :=
  permissions.all (fun p =>
    (dacl.filter (fun e =>
      e.principal == vmAccountSID && p.data.isPrefixOf (icacls e).data)).length == 1)

/-- The test `TestGrantVMGroupAccess_File_DesiredPermissions` on newly created
files: every case grants its mask without an error and passes the check. -/
def fileDesiredPermissionsTest (c : AccessMasks) (encode : Nat → Nat) (icacls : ACE → String)
    (others : List ACE) : Bool :=
  (filePermissionCases c).all (fun cfg =>
    match GrantVmGroupAccessWithMask c encode (some (newFile others)) cfg.2.1 with
    | .ok o => verifyVMAccountDACLs icacls o.dacl cfg.2.2
    | .error _ => false)

/-- The table of `TestGrantVMGroupAccess_Directory_Permissions`: the name of
the case, the access, the permissions expected on the file inside the
directory and those expected on the directory. -/
def directoryPermissionCases (c : AccessMasks) :
    List (String × Nat × List String × List String) :=
  [ ("Read", c.AccessMaskRead, ["(I)(R)"], ["(R)", "(OI)(CI)(IO)(GR)"]),
    ("Write", c.AccessMaskWrite, ["(I)(W,Rc)"], ["(W,Rc)", "(OI)(CI)(IO)(GW)"]),
    ("Execute", c.AccessMaskExecute, ["(I)(Rc,S,X,RA)"], ["(Rc,S,X,RA)", "(OI)(CI)(IO)(GE)"]),
    ("ReadWrite", c.AccessMaskRead ||| c.AccessMaskWrite,
      ["(I)(R,W)"], ["(R,W)", "(OI)(CI)(IO)(GR,GW)"]),
    ("ReadExecute", c.AccessMaskRead ||| c.AccessMaskExecute,
      ["(I)(RX)"], ["(RX)", "(OI)(CI)(IO)(GR,GE)"]),
    ("WriteExecute", c.AccessMaskWrite ||| c.AccessMaskExecute,
      ["(I)(W,Rc,X,RA)"], ["(W,Rc,X,RA)", "(OI)(CI)(IO)(GW,GE)"]),
    ("ReadWriteExecute", c.AccessMaskRead ||| c.AccessMaskWrite ||| c.AccessMaskExecute,
      ["(I)(RX,W)"], ["(RX,W)", "(OI)(CI)(IO)(GR,GW,GE)"]),
    ("All", c.AccessMaskAll, ["(I)(F)"], ["(F)", "(OI)(CI)(IO)(F)"]) ]

/-- The text the listing prints for an entry after its principal: the marks
`(I)`, `(OI)`, `(CI)`, `(IO)` of the entry, then the rights of its mask;
`rights` is how the listing prints a mask. -/
def listing (rights : Nat → String) (e : ACE) : String :=
  (if e.inherited then "(I)" else "") ++ (if e.objectInherit then "(OI)" else "") ++
    (if e.containerInherit then "(CI)" else "") ++ (if e.inheritOnly then "(IO)" else "") ++
    rights e.mask

/-- The test `TestGrantVMGroupAccess_Directory_Permissions` on a new directory
that holds a file: every case grants its access on the directory without an
error, the directory passes the check for the directory permissions and the
file inside passes the check for the file permissions. -/
def directoryPermissionsTest (c : AccessMasks) (encode : Nat → Nat) (rights : Nat → String)
    (others : List ACE) : Bool :=
  (directoryPermissionCases c).all (fun cfg =>
    match GrantVmGroupAccessWithMask c encode (some (newDir others)) cfg.2.1 with
    | .ok d =>
      verifyVMAccountDACLs (listing rights) d.dacl cfg.2.2.2 &&
        verifyVMAccountDACLs (listing rights) (fileInside encode d) cfg.2.2.1
    | .error _ => false)

/-! ## The options resolution (packages `oci` and `uvm`)

Of package `oci` the sources hold the tests only; `SpecToUVMCreateOpts` and the
default options are modelled from the design document. -/

/-- Modelled from the spec: the annotation keys the resolution recognises,
declared in package `annotations` outside the embedded sources; arbitrary
strings here. -/
structure UVMAnnotationKeys where
  ProcessorCount : String
  MemorySizeInMB : String
  MemoryLowMMIOGapInMB : String
  CPUGroupID : String
  DisableWritableFileShares : String
  BootFilesRootPath : String
  NetworkConfigProxy : String
  deriving DecidableEq, Repr

/-- Modelled from the spec: the common options `uvm.Options` of a resolved
configuration, with the fields the data model names. -/
structure UVMOptions where
  ID : String
  Owner : String
  ProcessorCount : Nat
  MemorySizeInMB : Nat
  LowMMIOGapInMB : Nat
  CPUGroupID : String
  NoWritableFileShares : Bool
  BootFilesRootPath : String
  NetworkConfigProxy : String
  deriving DecidableEq, Repr

/-- Modelled from the spec: the Linux-flavoured options `uvm.OptionsLCOW`: the
common options, the output handler creator that the test sets to nil before
comparing, and the remaining fields. -/
structure OptionsLCOW (Handler Rest : Type) where
  Options : UVMOptions
  OutputHandlerCreator : Option Handler
  rest : Rest
  deriving DecidableEq, Repr

/-- Modelled from the spec: the Windows-flavoured options `uvm.OptionsWCOW`. -/
structure OptionsWCOW (Rest : Type) where
  Options : UVMOptions
  rest : Rest
  deriving DecidableEq, Repr

/-- Modelled from the spec: the defaults provider, the functions
`NewDefaultOptionsLCOW(id, owner)` and `NewDefaultOptionsWCOW(id, owner)`, pure
functions of their inputs whose values the sources do not hold. -/
structure DefaultsProvider (Handler RestL RestW : Type) where
  NewDefaultOptionsLCOW : String → String → OptionsLCOW Handler RestL
  NewDefaultOptionsWCOW : String → String → OptionsWCOW RestW

/-- The descriptor `specs.Windows` of a spec, with its Hyper-V descriptor (a
nil pointer is `none`). -/
structure specs.Windows (HyperV : Type) where
  HyperV : Option HyperV
  deriving DecidableEq, Repr

/-- Modelled from the spec: the error kinds of the resolution. -/
inductive ResolveError where
  | UnsupportedGuest
  | InvalidAnnotationValue (key : String)
  deriving DecidableEq, Repr

/-- What the resolution does with an annotation value that does not parse.
The design document makes it an error (`reject`).  No code and no test among
the sources resolves a malformed annotation, so the model also covers a
resolution that passes over the value and keeps the value so far
(`keepDefault`). -/
inductive MalformedPolicy where
  | reject
  | keepDefault
  deriving DecidableEq, Repr

/-- The outcome for a value of the annotation `key` that does not parse. -/
def MalformedPolicy.outcome {α : Type} (policy : MalformedPolicy) (key : String) (dflt : α) :
    Except ResolveError α :=
  match policy with
  | .reject => .error (.InvalidAnnotationValue key)
  | .keepDefault => .ok dflt

/-- Modelled from the spec: a numeric annotation is parsed from its string; an
absent key keeps the value so far, "a malformed numeric string is an
`InvalidAnnotationValue` error naming the offending key" under the policy
`reject`. -/
def annotationNumber (policy : MalformedPolicy) (a : GoMap) (key : String) (dflt : Nat) :
    Except ResolveError Nat :=
  match GoMap.get a key with
  | none => .ok dflt
  | some v =>
    match parseUint v.data with
    | some n => .ok n
    | none => policy.outcome key dflt

/-- Modelled from the spec: a boolean-flag annotation parses "via a strict
true/false grammar; any other token is the same error kind" under the policy
`reject`. -/
def annotationBool (policy : MalformedPolicy) (a : GoMap) (key : String) (dflt : Bool) :
    Except ResolveError Bool :=
  match GoMap.get a key with
  | none => .ok dflt
  | some v =>
    if v = "true" then .ok true
    else if v = "false" then .ok false
    else policy.outcome key dflt

/-- A string annotation is taken verbatim; an absent key keeps the value so
far. -/
def annotationString (a : GoMap) (key : String) (dflt : String) : String :=
  (GoMap.get a key).getD dflt

/-- Modelled from the spec: the annotations of the spec applied on top of the
common options of the family baseline. -/
def resolveCommon (policy : MalformedPolicy) (K : UVMAnnotationKeys) (a : GoMap)
    (base : UVMOptions) : Except ResolveError UVMOptions := do
  let processorCount ← annotationNumber policy a K.ProcessorCount base.ProcessorCount
  let memorySize ← annotationNumber policy a K.MemorySizeInMB base.MemorySizeInMB
  let lowMMIOGap ← annotationNumber policy a K.MemoryLowMMIOGapInMB base.LowMMIOGapInMB
  let noWritable ←
    annotationBool policy a K.DisableWritableFileShares base.NoWritableFileShares
  pure { base with
    ProcessorCount := processorCount
    MemorySizeInMB := memorySize
    LowMMIOGapInMB := lowMMIOGap
    CPUGroupID := annotationString a K.CPUGroupID base.CPUGroupID
    NoWritableFileShares := noWritable
    BootFilesRootPath := annotationString a K.BootFilesRootPath base.BootFilesRootPath
    NetworkConfigProxy := annotationString a K.NetworkConfigProxy base.NetworkConfigProxy }

/-- Modelled from the spec: the function `SpecToUVMCreateOpts(ctx, s, id,
owner)`, whose code is outside the embedded sources.  A Linux descriptor
selects the Linux baseline and a Linux-flavoured result, a Windows Hyper-V
descriptor the Windows baseline and a Windows-flavoured result; a spec with
neither is an unsupported guest.  `policy` is what the resolution does with a
malformed annotation value. -/
def SpecToUVMCreateOpts {L HV R Handler RestL RestW : Type} (policy : MalformedPolicy)
    (D : DefaultsProvider Handler RestL RestW) (K : UVMAnnotationKeys)
    (s : Spec L (specs.Windows HV) R) (id owner : String) :
    Except ResolveError (OptionsLCOW Handler RestL ⊕ OptionsWCOW RestW) :=
  if s.Linux.isSome then
    match resolveCommon policy K s.Annotations (D.NewDefaultOptionsLCOW id owner).Options with
    | .ok o => .ok (.inl { D.NewDefaultOptionsLCOW id owner with Options := o })
    | .error e => .error e
  else if (s.Windows.bind (fun w => w.HyperV)).isSome then
    match resolveCommon policy K s.Annotations (D.NewDefaultOptionsWCOW id owner).Options with
    | .ok o => .ok (.inr { D.NewDefaultOptionsWCOW id owner with Options := o })
    | .error e => .error e
  else .error .UnsupportedGuest

/-- The common options of a result, as the test extracts them from either
flavour. -/
def commonOptions {Handler RestL RestW : Type} :
    OptionsLCOW Handler RestL ⊕ OptionsWCOW RestW → UVMOptions
  | .inl l => l.Options
  | .inr w => w.Options

/-- The decimal string of a natural number. -/
def decimalString (n : Nat) : String := String.mk (formatUint n)

/-! ## Concrete inputs -/

/-- Four different annotation keys, named as in the list of recognised keys. -/
def sampleKeys : AnnotationKeys :=
  { BootFilesRootPath := "boot-files-root-path"
    ProcessorCount := "processor-count"
    MemorySizeInMB := "memory-size-mb"
    NetworkConfigProxy := "network-config-proxy" }

/-- A Linux-guest spec whose annotations are `{a: 9}`. -/
def specA9 : Spec Unit Unit Unit :=
  { Annotations := some [("a", "9")], Linux := some (), Windows := none, rest := () }

/-- Options with no typed field set and the defaults `{a: 1, b: 2}`. -/
def optsDefaultsAB : Options :=
  { BootFilesRootPath := "", VmProcessorCount := 0, VmMemorySizeInMb := 0, NCProxyAddr := ""
    DefaultContainerAnnotations := some [("a", "1"), ("b", "2")] }

/-- The same options with the defaults visited in the other order. -/
def optsDefaultsBA : Options :=
  { optsDefaultsAB with DefaultContainerAnnotations := some [("b", "2"), ("a", "1")] }

/-- A spec that sets the processor count to the empty string. -/
def specEmptyCount : Spec Unit Unit Unit :=
  { Annotations := some [("processor-count", "")], Linux := some (), Windows := none, rest := () }

/-- A Windows Hyper-V spec with an empty, non-nil annotation map. -/
def specEmpty : Spec Unit Unit Unit :=
  { Annotations := some [], Linux := none, Windows := some (), rest := () }

/-- Options with every typed field set, and defaults for two of the four keys. -/
def optsFull : Options :=
  { BootFilesRootPath := "/boot", VmProcessorCount := 8, VmMemorySizeInMb := -3
    NCProxyAddr := "addr"
    DefaultContainerAnnotations := some [("processor-count", "4"), ("memory-size-mb", "64")] }

/-- Options with nothing set: the typed fields are zero and the defaults nil. -/
def optsZero : Options :=
  { BootFilesRootPath := "", VmProcessorCount := 0, VmMemorySizeInMb := 0, NCProxyAddr := ""
    DefaultContainerAnnotations := none }

/-- Options with no typed field set and a default for the processor count. -/
def optsCountDefault : Options :=
  { BootFilesRootPath := "", VmProcessorCount := 0, VmMemorySizeInMb := 0, NCProxyAddr := ""
    DefaultContainerAnnotations := some [("processor-count", "4")] }

/-- A Linux-guest spec whose annotation map is nil. -/
def specNil : Spec Unit Unit Unit :=
  { Annotations := none, Linux := some (), Windows := none, rest := () }

/-- Sample values of the named masks: four different bits above bit 0. -/
def sampleMasks : AccessMasks :=
  { AccessMaskRead := 0x80000000, AccessMaskWrite := 0x40000000
    AccessMaskExecute := 0x20000000, AccessMaskAll := 0x10000000 }

/-- A sample listing for the sample masks, agreeing with the table of the file
test. -/
def sampleIcacls (e : ACE) : String :=
  if e.mask = 0x80000000 then "(R)"
  else if e.mask = 0x40000000 then "(W,Rc)"
  else if e.mask = 0x20000000 then "(Rc,S,X,RA)"
  else if e.mask = 0xC0000000 then "(R,W)"
  else if e.mask = 0xA0000000 then "(RX)"
  else if e.mask = 0x60000000 then "(W,Rc,X,RA)"
  else if e.mask = 0xE0000000 then "(RX,W)"
  else "(F)"

/-- A sample translation of a requested mask into the rights of an object. -/
def sampleEncode (m : Nat) : Nat := m / 0x10000

/-- A sample printing of masks, agreeing with the table of the directory test
for the sample masks and the sample translation. -/
def sampleRights (m : Nat) : String :=
  if m = 0x8000 then "(R)"
  else if m = 0x4000 then "(W,Rc)"
  else if m = 0x2000 then "(Rc,S,X,RA)"
  else if m = 0xC000 then "(R,W)"
  else if m = 0xA000 then "(RX)"
  else if m = 0x6000 then "(W,Rc,X,RA)"
  else if m = 0xE000 then "(RX,W)"
  else if m = 0x80000000 then "(GR)"
  else if m = 0x40000000 then "(GW)"
  else if m = 0x20000000 then "(GE)"
  else if m = 0xC0000000 then "(GR,GW)"
  else if m = 0xA0000000 then "(GR,GE)"
  else if m = 0x60000000 then "(GW,GE)"
  else if m = 0xE0000000 then "(GR,GW,GE)"
  else "(F)"

/-- Sample keys of the resolution, named as in the list of recognised keys. -/
def sampleUVMKeys : UVMAnnotationKeys :=
  { ProcessorCount := "processor-count", MemorySizeInMB := "memory-size-mb"
    MemoryLowMMIOGapInMB := "memory-low-mmio-gap-mb", CPUGroupID := "cpu-group-id"
    DisableWritableFileShares := "disable-writable-file-shares"
    BootFilesRootPath := "boot-files-root-path", NetworkConfigProxy := "network-config-proxy" }

/-- Sample common defaults: a non-zero processor count, a memory size, no
low-MMIO gap, writable file shares, no CPU group, no proxy. -/
def sampleCommon (id owner : String) : UVMOptions :=
  { ID := id, Owner := owner, ProcessorCount := 2, MemorySizeInMB := 1024, LowMMIOGapInMB := 0
    CPUGroupID := "", NoWritableFileShares := false, BootFilesRootPath := ""
    NetworkConfigProxy := "" }

/-- A sample defaults provider. -/
def sampleDefaults : DefaultsProvider Unit Unit Unit :=
  { NewDefaultOptionsLCOW := fun id owner =>
      { Options := sampleCommon id owner, OutputHandlerCreator := some (), rest := () }
    NewDefaultOptionsWCOW := fun id owner => { Options := sampleCommon id owner, rest := () } }

/-- The annotations of `Test_SpecToUVMCreateOptions_Common`. -/
def commonAnnotations : Entries :=
  [ ("processor-count", "8"), ("cpu-group-id", "1"), ("disable-writable-file-shares", "true"),
    ("memory-low-mmio-gap-mb", "1024") ]

/-- The Linux-guest spec of the common test. -/
def specCommonLCOW : Spec Unit (specs.Windows Unit) Unit :=
  { Annotations := some commonAnnotations, Linux := some (), Windows := none, rest := () }

/-- The Windows Hyper-V spec of the common test. -/
def specCommonWCOW : Spec Unit (specs.Windows Unit) Unit :=
  { Annotations := some commonAnnotations, Linux := none
    Windows := some { HyperV := some () }, rest := () }

/-- The Linux-guest spec of the common test with a memory size that is not a
number. -/
def specMalformedMemory : Spec Unit (specs.Windows Unit) Unit :=
  { specCommonLCOW with Annotations := some (("memory-size-mb", "lots") :: commonAnnotations) }

/-- The Linux-guest spec of the default test: an empty annotation map. -/
def specDefaultLCOW : Spec Unit (specs.Windows Unit) Unit :=
  { Annotations := some [], Linux := some (), Windows := none, rest := () }

/-- The Windows Hyper-V spec of the default test: an empty annotation map. -/
def specDefaultWCOW : Spec Unit (specs.Windows Unit) Unit :=
  { Annotations := some [], Linux := none, Windows := some { HyperV := some () }, rest := () }

/-- A context the caller has cancelled. -/
def cancelledCtx : Context := { Err := context.Canceled }

/-! ## Lemmas on maps -/

theorem lookup_cons_ite (k a b : String) (es : Entries) :
    List.lookup k ((a, b) :: es) = if k = a then some b else List.lookup k es := by
  by_cases h : k = a
  · subst h; simp
  · have hb : (k == a) = false := by simpa using h
    simp [List.lookup, hb, h]

theorem Entries.lookup_assign (k v k' : String) (es : Entries) :
    List.lookup k' (Entries.assign k v es) = if k' = k then some v else List.lookup k' es := by
  induction es with
  | nil => simp [Entries.assign, lookup_cons_ite]
  | cons e es ih =>
    obtain ⟨a, b⟩ := e
    by_cases ha : a = k
    · subst ha
      by_cases h : k' = a <;> simp [Entries.assign, lookup_cons_ite, h]
    · by_cases h : k' = a
      · subst h
        simp [Entries.assign, lookup_cons_ite, ha]
      · simp [Entries.assign, lookup_cons_ite, ha, h, ih]

theorem Entries.lookup_setWhen (c : Prop) [Decidable c] (key v k : String) (es : Entries) :
    List.lookup k (Entries.setWhen c key v es) = (List.lookup k es).or (offer c key v k) := by
  unfold Entries.setWhen offer
  by_cases hc : c
  · by_cases hk : k = key
    · subst hk
      cases h : List.lookup k es <;> simp [h, hc, Entries.lookup_assign]
    · cases h : List.lookup key es <;> simp [h, hc, hk, Entries.lookup_assign, Option.or_none]
  · simp [hc, Option.or_none]

theorem Entries.lookup_merge (ds es : Entries) (k : String) :
    List.lookup k (Entries.merge ds es) = (List.lookup k es).or (List.lookup k ds) := by
  induction ds generalizing es with
  | nil => simp [Entries.merge, Option.or_none]
  | cons d ds ih =>
    obtain ⟨a, b⟩ := d
    rw [Entries.merge, ih, Entries.lookup_setWhen, Option.or_assoc, lookup_cons_ite]
    congr 1
    by_cases h : k = a
    · simp [offer, h]
    · simp [offer, h]

theorem Entries.lookup_update (K : AnnotationKeys) (o : Options) (es : Entries) (k : String) :
    List.lookup k (Entries.update K o es) =
      (List.lookup k es).or
        ((offer (o.BootFilesRootPath ≠ "") K.BootFilesRootPath o.BootFilesRootPath k).or
          ((offer (o.VmProcessorCount ≠ 0) K.ProcessorCount (FormatInt o.VmProcessorCount) k).or
            ((offer (o.VmMemorySizeInMb ≠ 0) K.MemorySizeInMB (FormatInt o.VmMemorySizeInMb) k).or
              ((offer (o.NCProxyAddr ≠ "") K.NetworkConfigProxy o.NCProxyAddr k).or
                (List.lookup k (GoMap.range o.DefaultContainerAnnotations)))))) := by
  simp only [Entries.update, Entries.lookup_merge, Entries.lookup_setWhen, Option.or_assoc]

theorem guardedAssign_some (c : Prop) [Decidable c] (key v : String) (es : Entries) :
    guardedAssign c key v (some es) = .ok (some (Entries.setWhen c key v es)) := by
  unfold guardedAssign Entries.setWhen
  by_cases h : (List.lookup key es).isNone ∧ c
  · rw [if_pos h, if_pos (by simpa [GoMap.get] using h)]; rfl
  · rw [if_neg h, if_neg (by simpa [GoMap.get] using h)]

theorem rangeLoop_some (ds es : Entries) :
    rangeLoop ds (some es) = .ok (some (Entries.merge ds es)) := by
  induction ds generalizing es with
  | nil => rfl
  | cons d ds ih => simp only [rangeLoop, guardedAssign_some, ih, Entries.merge]

theorem updateAnnotations_some (K : AnnotationKeys) (o : Options) (es : Entries) :
    updateAnnotations K (some es) o = .ok (some (Entries.update K o es)) := by
  simp only [updateAnnotations, guardedAssign_some, rangeLoop_some, Entries.update,
    bind, Except.bind]

theorem UpdateSpecFromOptions_some {L W R : Type} (K : AnnotationKeys) (s : Spec L W R)
    (o : Options) (es : Entries) (hs : s.Annotations = some es) :
    UpdateSpecFromOptions K s (some o) =
      .ok { s with Annotations := some (Entries.update K o es) } := by
  simp only [UpdateSpecFromOptions, hs, updateAnnotations_some]

theorem GoMap.get_eq_lookup_range (m : GoMap) (k : String) :
    GoMap.get m k = List.lookup k (GoMap.range m) := by
  cases m <;> rfl

theorem GoMap.get_update {L W R : Type} (K : AnnotationKeys) (s : Spec L W R) (o : Options)
    (hs : s.Annotations.isSome) :
    ∃ s', UpdateSpecFromOptions K s (some o) = .ok s' ∧ s'.Annotations.isSome ∧
      s'.Linux = s.Linux ∧ s'.Windows = s.Windows ∧ s'.rest = s.rest ∧
      ∀ k, GoMap.get s'.Annotations k =
        (GoMap.get s.Annotations k).or
          ((offer (o.BootFilesRootPath ≠ "") K.BootFilesRootPath o.BootFilesRootPath k).or
            ((offer (o.VmProcessorCount ≠ 0) K.ProcessorCount (FormatInt o.VmProcessorCount) k).or
              ((offer (o.VmMemorySizeInMb ≠ 0) K.MemorySizeInMB
                  (FormatInt o.VmMemorySizeInMb) k).or
                ((offer (o.NCProxyAddr ≠ "") K.NetworkConfigProxy o.NCProxyAddr k).or
                  (GoMap.get o.DefaultContainerAnnotations k))))) := by
  obtain ⟨es, hes⟩ := Option.isSome_iff_exists.mp hs
  refine ⟨_, UpdateSpecFromOptions_some K s o es hes, rfl, rfl, rfl, rfl, fun k => ?_⟩
  rw [GoMap.get_eq_lookup_range o.DefaultContainerAnnotations, hes]
  exact Entries.lookup_update K o es k

theorem lookup_eq_some_iff_mem (es : Entries) (hnd : (Entries.keys es).Nodup) (k v : String) :
    List.lookup k es = some v ↔ (k, v) ∈ es := by
  induction es with
  | nil => simp
  | cons e es ih =>
    obtain ⟨a, b⟩ := e
    simp only [Entries.keys, List.map_cons, List.nodup_cons, List.mem_map, not_exists,
      not_and] at hnd
    rw [lookup_cons_ite]
    by_cases h : k = a
    · subst h
      simp only [if_true, Option.some.injEq, List.mem_cons, Prod.mk.injEq, true_and]
      constructor
      · intro hb; exact Or.inl hb.symm
      · rintro (hb | hmem)
        · exact hb.symm
        · exact absurd rfl (hnd.1 (k, v) hmem)
    · simp only [h, if_false, List.mem_cons, Prod.mk.injEq, false_and, false_or]
      exact ih hnd.2

theorem lookup_perm (ds₁ ds₂ : Entries) (hnd : (Entries.keys ds₁).Nodup) (hp : ds₁.Perm ds₂)
    (k : String) : List.lookup k ds₁ = List.lookup k ds₂ := by
  have hnd₂ : (Entries.keys ds₂).Nodup := (hp.map Prod.fst).nodup_iff.mp hnd
  apply Option.ext
  intro v
  rw [Option.mem_def, Option.mem_def, lookup_eq_some_iff_mem ds₁ hnd,
    lookup_eq_some_iff_mem ds₂ hnd₂]
  exact hp.mem_iff

/-! ## Lemmas on decimal strings -/

theorem digit_toNat (d : Nat) (hd : d < 10) : (Char.ofNat (48 + d)).toNat = 48 + d := by
  interval_cases d <;> decide

theorem digit_ne_sign (d : Nat) (hd : d < 10) :
    Char.ofNat (48 + d) ≠ '-' ∧ Char.ofNat (48 + d) ≠ '+' := by
  interval_cases d <;> decide

theorem parseDigits_digit (d : Nat) (hd : d < 10) (cs : List Char) (a : Nat) :
    parseDigits (Char.ofNat (48 + d) :: cs) a = parseDigits cs (a * 10 + d) := by
  have h := digit_toNat d hd
  rw [parseDigits, h, if_pos (by omega)]
  congr 1
  omega

theorem decimalDigits_head (fuel n : Nat) (acc : List Char) (hf : 0 < fuel) :
    ∃ d rest, d < 10 ∧ decimalDigits fuel n acc = Char.ofNat (48 + d) :: rest := by
  induction fuel generalizing n acc with
  | zero => omega
  | succ fuel ih =>
    rw [decimalDigits]
    by_cases h : n / 10 = 0
    · exact ⟨n % 10, acc, Nat.mod_lt _ (by omega), by simp [h]⟩
    · simp only [h, if_false]
      rcases Nat.eq_zero_or_pos fuel with h0 | hpos
      · subst h0
        exact ⟨n % 10, acc, Nat.mod_lt _ (by omega), by simp [decimalDigits]⟩
      · exact ih _ _ hpos

theorem parseDigits_decimalDigits (fuel n : Nat) (hn : n < fuel) :
    ∃ L, ∀ acc a, parseDigits (decimalDigits fuel n acc) a = parseDigits acc (a * 10 ^ L + n) := by
  induction fuel generalizing n with
  | zero => omega
  | succ fuel ih =>
    by_cases h : n / 10 = 0
    · refine ⟨1, fun acc a => ?_⟩
      have hlt : n < 10 := by omega
      rw [decimalDigits]
      simp only [h, if_true]
      rw [Nat.mod_eq_of_lt hlt, parseDigits_digit n hlt]
      simp
    · obtain ⟨L, hL⟩ := ih (n / 10) (by omega)
      refine ⟨L + 1, fun acc a => ?_⟩
      rw [decimalDigits]
      simp only [h, if_false]
      rw [hL, parseDigits_digit _ (Nat.mod_lt _ (by omega))]
      congr 1
      have := Nat.div_add_mod n 10
      rw [pow_succ]
      nlinarith [Nat.div_add_mod n 10]

theorem parseUint_formatUint (n : Nat) : parseUint (formatUint n) = some n := by
  obtain ⟨d, rest, _, hd⟩ := decimalDigits_head (n + 1) n [] (by omega)
  obtain ⟨L, hL⟩ := parseDigits_decimalDigits (n + 1) n (by omega)
  have h := hL [] 0
  unfold formatUint
  rw [hd] at h ⊢
  simpa [parseUint, parseDigits] using h

/-- Reading back a number written in decimal: on the range of `int64`,
`ParseInt` inverts `FormatInt`. -/
theorem ParseInt_FormatInt (i : Int) (hlo : -9223372036854775808 ≤ i)
    (hhi : i ≤ 9223372036854775807) : ParseInt (FormatInt i) = some i := by
  unfold FormatInt
  by_cases hneg : i < 0
  · rw [if_pos hneg]
    simp only [ParseInt, if_true, parseUint_formatUint]
    rw [if_pos (by omega)]
    congr 1
    omega
  · rw [if_neg hneg]
    obtain ⟨d, rest, hd, hrest⟩ := decimalDigits_head (i.natAbs + 1) i.natAbs [] (by omega)
    have hu := parseUint_formatUint i.natAbs
    unfold formatUint at hu ⊢
    rw [hrest] at hu ⊢
    simp only [ParseInt, (digit_ne_sign d hd).1, (digit_ne_sign d hd).2, if_false, hu]
    rw [if_pos (by omega)]
    congr 1
    omega

/-! ## Properties of `UpdateSpecFromOptions` -/

/-- C1: non-clobbering.  A key that the annotation map of the spec already has
(its value may be the empty string, and the key may be one of the four fixed
keys) reads the same value in the map that `UpdateSpecFromOptions` returns, for
every non-nil options value. -/
theorem UpdateSpecFromOptions_keeps_present {L W R : Type} (K : AnnotationKeys)
    (s : Spec L W R) (o : Options) (k v : String)
    (hk : GoMap.get s.Annotations k = some v) :
    ∃ s', UpdateSpecFromOptions K s (some o) = .ok s' ∧ GoMap.get s'.Annotations k = some v := by
  have hs : s.Annotations.isSome := by
    cases h : s.Annotations with
    | none => rw [h] at hk; exact absurd hk (by simp [GoMap.get])
    | some es => rfl
  obtain ⟨s', hs', -, -, -, -, hget⟩ := GoMap.get_update K s o hs
  exact ⟨s', hs', by rw [hget, hk, Option.or_some]⟩

/-- Witness of C1: a processor count that the spec sets to the empty string
survives options that set the processor count both in the typed field and in
the defaults. -/
theorem UpdateSpecFromOptions_keeps_present_witness :
    GoMap.get specEmptyCount.Annotations "processor-count" = some "" ∧
    ∃ s', UpdateSpecFromOptions sampleKeys specEmptyCount (some optsFull) = .ok s' ∧
      GoMap.get s'.Annotations "processor-count" = some "" :=
  ⟨by decide,
    UpdateSpecFromOptions_keeps_present sampleKeys specEmptyCount optsFull "processor-count" ""
      (by decide)⟩

/-- C2: per-key merge of the default container annotations.  When the four
typed fields of the options are empty or zero, the returned annotation map is
the left-biased union of the annotations of the spec and the defaults: every
key reads the value of the spec if the spec has it and the value of the
defaults otherwise. -/
theorem UpdateSpecFromOptions_merges_defaults {L W R : Type} (K : AnnotationKeys)
    (s : Spec L W R) (o : Options) (hs : s.Annotations.isSome)
    (hb : o.BootFilesRootPath = "") (hp : o.VmProcessorCount = 0)
    (hm : o.VmMemorySizeInMb = 0) (hn : o.NCProxyAddr = "") :
    ∃ s', UpdateSpecFromOptions K s (some o) = .ok s' ∧ s'.Annotations.isSome ∧
      ∀ k, GoMap.get s'.Annotations k =
        (GoMap.get s.Annotations k).or (GoMap.get o.DefaultContainerAnnotations k) := by
  obtain ⟨s', hs', hsome, -, -, -, hget⟩ := GoMap.get_update K s o hs
  refine ⟨s', hs', hsome, fun k => ?_⟩
  rw [hget]
  simp [offer, hb, hp, hm, hn]

/-- Witness of C2: the defaults `{a: 1, b: 2}` and the spec annotations
`{a: 9}` give `{a: 9, b: 2}`. -/
theorem UpdateSpecFromOptions_merges_defaults_witness :
    (∃ s', UpdateSpecFromOptions sampleKeys specA9 (some optsDefaultsAB) = .ok s' ∧
      s'.Annotations.isSome ∧
      ∀ k, GoMap.get s'.Annotations k =
        (GoMap.get specA9.Annotations k).or
          (GoMap.get optsDefaultsAB.DefaultContainerAnnotations k)) ∧
    (UpdateSpecFromOptions sampleKeys specA9 (some optsDefaultsAB)).toOption.map
      (fun s' => s'.Annotations) = some (some [("a", "9"), ("b", "2")]) :=
  ⟨UpdateSpecFromOptions_merges_defaults sampleKeys specA9 optsDefaultsAB rfl rfl rfl rfl rfl,
    by decide⟩

/-- C3: independence of the iteration order.  For a spec with a non-nil
annotation map and options whose default container annotations have the
entries `ds₁` (a map: no key twice), visiting the entries in the order `ds₁` or
in any other order `ds₂` returns the same annotation map, and the same spec
otherwise. -/
theorem UpdateSpecFromOptions_range_order {L W R : Type} (K : AnnotationKeys)
    (s : Spec L W R) (o : Options) (ds₁ ds₂ : Entries) (hs : s.Annotations.isSome)
    (hnd : (Entries.keys ds₁).Nodup) (hperm : ds₁.Perm ds₂) :
    ∃ s₁ s₂,
      UpdateSpecFromOptions K s (some { o with DefaultContainerAnnotations := some ds₁ }) = .ok s₁ ∧
      UpdateSpecFromOptions K s (some { o with DefaultContainerAnnotations := some ds₂ }) = .ok s₂ ∧
      GoMap.Same s₁.Annotations s₂.Annotations ∧
      s₁.Linux = s₂.Linux ∧ s₁.Windows = s₂.Windows ∧ s₁.rest = s₂.rest := by
  obtain ⟨s₁, h₁, hsome₁, hl₁, hw₁, hr₁, hget₁⟩ :=
    GoMap.get_update K s { o with DefaultContainerAnnotations := some ds₁ } hs
  obtain ⟨s₂, h₂, hsome₂, hl₂, hw₂, hr₂, hget₂⟩ :=
    GoMap.get_update K s { o with DefaultContainerAnnotations := some ds₂ } hs
  refine ⟨s₁, s₂, h₁, h₂, ⟨by rw [hsome₁, hsome₂], fun k => ?_⟩, by rw [hl₁, hl₂],
    by rw [hw₁, hw₂], by rw [hr₁, hr₂]⟩
  rw [hget₁, hget₂]
  simp only [GoMap.get, lookup_perm ds₁ ds₂ hnd hperm k]

/-- Witness of C3: the defaults `{a: 1, b: 2}` visited as `a, b` and as
`b, a`. -/
theorem UpdateSpecFromOptions_range_order_witness :
    ∃ s₁ s₂,
      UpdateSpecFromOptions sampleKeys specEmpty (some optsDefaultsAB) = .ok s₁ ∧
      UpdateSpecFromOptions sampleKeys specEmpty (some optsDefaultsBA) = .ok s₂ ∧
      GoMap.Same s₁.Annotations s₂.Annotations ∧
      s₁.Linux = s₂.Linux ∧ s₁.Windows = s₂.Windows ∧ s₁.rest = s₂.rest :=
  UpdateSpecFromOptions_range_order sampleKeys specEmpty optsDefaultsAB
    [("a", "1"), ("b", "2")] [("b", "2"), ("a", "1")] rfl (by decide)
    (List.Perm.swap ("b", "2") ("a", "1") [])

/-- C4: nil options.  For every spec, with a nil or a non-nil annotation map,
`UpdateSpecFromOptions(s, nil)` returns `s` itself: every field, the annotation
map included, is the one of the input. -/
theorem UpdateSpecFromOptions_nil_options {L W R : Type} (K : AnnotationKeys)
    (s : Spec L W R) : UpdateSpecFromOptions K s none = .ok s :=
  rfl

/-- C5: numeric option fields are written as decimal strings that read back to
the same number.  With pairwise different annotation keys and a non-nil
annotation map that lacks the processor-count key, a non-zero `int32` value `n`
of `VmProcessorCount`, negative or positive, leaves the key set to
`FormatInt(n, 10)`, and `ParseInt` of that string is `n`; likewise for the
memory-size key and `VmMemorySizeInMb`. -/
theorem UpdateSpecFromOptions_numeric_fields {L W R : Type} (K : AnnotationKeys)
    (s : Spec L W R) (o : Options) (hs : s.Annotations.isSome) (hK : K.Distinct) :
    (GoMap.get s.Annotations K.ProcessorCount = none → o.VmProcessorCount ≠ 0 →
      IsInt32 o.VmProcessorCount →
      ∃ s', UpdateSpecFromOptions K s (some o) = .ok s' ∧
        GoMap.get s'.Annotations K.ProcessorCount = some (FormatInt o.VmProcessorCount) ∧
        ParseInt (FormatInt o.VmProcessorCount) = some o.VmProcessorCount) ∧
    (GoMap.get s.Annotations K.MemorySizeInMB = none → o.VmMemorySizeInMb ≠ 0 →
      IsInt32 o.VmMemorySizeInMb →
      ∃ s', UpdateSpecFromOptions K s (some o) = .ok s' ∧
        GoMap.get s'.Annotations K.MemorySizeInMB = some (FormatInt o.VmMemorySizeInMb) ∧
        ParseInt (FormatInt o.VmMemorySizeInMb) = some o.VmMemorySizeInMb) := by
  obtain ⟨s', hs', -, -, -, -, hget⟩ := GoMap.get_update K s o hs
  obtain ⟨h12, h13, -, h23, -, -⟩ := hK
  constructor
  · intro habs hn hr
    refine ⟨s', hs', ?_, ParseInt_FormatInt _ (by have := hr.1; omega) (by have := hr.2; omega)⟩
    rw [hget, habs]
    simp [offer, hn, Ne.symm h12]
  · intro habs hn hr
    refine ⟨s', hs', ?_, ParseInt_FormatInt _ (by have := hr.1; omega) (by have := hr.2; omega)⟩
    rw [hget, habs]
    simp [offer, hn, Ne.symm h13, Ne.symm h23]

/-- Witness of C5: `VmProcessorCount = 8` writes `"8"` and the negative
`VmMemorySizeInMb = -3` writes `"-3"`. -/
theorem UpdateSpecFromOptions_numeric_fields_witness :
    (∃ s', UpdateSpecFromOptions sampleKeys specEmpty (some optsFull) = .ok s' ∧
      GoMap.get s'.Annotations "processor-count" = some (FormatInt 8) ∧
      ParseInt (FormatInt 8) = some 8) ∧
    (∃ s', UpdateSpecFromOptions sampleKeys specEmpty (some optsFull) = .ok s' ∧
      GoMap.get s'.Annotations "memory-size-mb" = some (FormatInt (-3)) ∧
      ParseInt (FormatInt (-3)) = some (-3)) ∧
    FormatInt 8 = "8" ∧ FormatInt (-3) = "-3" :=
  ⟨(UpdateSpecFromOptions_numeric_fields sampleKeys specEmpty optsFull rfl (by decide)).1
      (by decide) (by decide) (by decide),
    (UpdateSpecFromOptions_numeric_fields sampleKeys specEmpty optsFull rfl (by decide)).2
      (by decide) (by decide) (by decide),
    by decide, by decide⟩

/-- C6: string option fields are copied verbatim into a free slot.  On a
non-nil annotation map that lacks the boot-files key, a non-empty
`BootFilesRootPath` leaves the key set to exactly that string; with pairwise
different annotation keys, on a map that lacks the network-config-proxy key, a
non-empty `NCProxyAddr` leaves that key set to exactly that string. -/
theorem UpdateSpecFromOptions_string_fields {L W R : Type} (K : AnnotationKeys)
    (s : Spec L W R) (o : Options) (hs : s.Annotations.isSome) :
    (GoMap.get s.Annotations K.BootFilesRootPath = none → o.BootFilesRootPath ≠ "" →
      ∃ s', UpdateSpecFromOptions K s (some o) = .ok s' ∧
        GoMap.get s'.Annotations K.BootFilesRootPath = some o.BootFilesRootPath) ∧
    (K.Distinct → GoMap.get s.Annotations K.NetworkConfigProxy = none → o.NCProxyAddr ≠ "" →
      ∃ s', UpdateSpecFromOptions K s (some o) = .ok s' ∧
        GoMap.get s'.Annotations K.NetworkConfigProxy = some o.NCProxyAddr) := by
  obtain ⟨s', hs', -, -, -, -, hget⟩ := GoMap.get_update K s o hs
  constructor
  · intro habs hn
    refine ⟨s', hs', ?_⟩
    rw [hget, habs]
    simp [offer, hn]
  · rintro ⟨-, -, h14, -, h24, h34⟩ habs hn
    refine ⟨s', hs', ?_⟩
    rw [hget, habs]
    simp [offer, hn, Ne.symm h14, Ne.symm h24, Ne.symm h34]

/-- Witness of C6: the boot-files root path `/boot` and the proxy address
`addr` on an empty annotation map. -/
theorem UpdateSpecFromOptions_string_fields_witness :
    (∃ s', UpdateSpecFromOptions sampleKeys specEmpty (some optsFull) = .ok s' ∧
      GoMap.get s'.Annotations "boot-files-root-path" = some "/boot") ∧
    (∃ s', UpdateSpecFromOptions sampleKeys specEmpty (some optsFull) = .ok s' ∧
      GoMap.get s'.Annotations "network-config-proxy" = some "addr") :=
  ⟨(UpdateSpecFromOptions_string_fields sampleKeys specEmpty optsFull rfl).1
      (by decide) (by decide),
    (UpdateSpecFromOptions_string_fields sampleKeys specEmpty optsFull rfl).2
      (by decide) (by decide) (by decide)⟩

/-- C7: zero or empty option fields contribute nothing.  With pairwise
different annotation keys and a non-nil annotation map, the key of a typed
field that is zero or empty reads, in the returned map, what the spec or else
the defaults have for it, so nothing comes from the field; and when all four
fields are zero or empty and the defaults are nil or empty, the call returns
the spec it was given. -/
theorem UpdateSpecFromOptions_zero_fields {L W R : Type} (K : AnnotationKeys)
    (s : Spec L W R) (o : Options) :
    (s.Annotations.isSome → K.Distinct →
      ∃ s', UpdateSpecFromOptions K s (some o) = .ok s' ∧
        (o.BootFilesRootPath = "" → GoMap.get s'.Annotations K.BootFilesRootPath =
          (GoMap.get s.Annotations K.BootFilesRootPath).or
            (GoMap.get o.DefaultContainerAnnotations K.BootFilesRootPath)) ∧
        (o.VmProcessorCount = 0 → GoMap.get s'.Annotations K.ProcessorCount =
          (GoMap.get s.Annotations K.ProcessorCount).or
            (GoMap.get o.DefaultContainerAnnotations K.ProcessorCount)) ∧
        (o.VmMemorySizeInMb = 0 → GoMap.get s'.Annotations K.MemorySizeInMB =
          (GoMap.get s.Annotations K.MemorySizeInMB).or
            (GoMap.get o.DefaultContainerAnnotations K.MemorySizeInMB)) ∧
        (o.NCProxyAddr = "" → GoMap.get s'.Annotations K.NetworkConfigProxy =
          (GoMap.get s.Annotations K.NetworkConfigProxy).or
            (GoMap.get o.DefaultContainerAnnotations K.NetworkConfigProxy))) ∧
    (o.BootFilesRootPath = "" → o.VmProcessorCount = 0 → o.VmMemorySizeInMb = 0 →
      o.NCProxyAddr = "" → GoMap.range o.DefaultContainerAnnotations = [] →
      UpdateSpecFromOptions K s (some o) = .ok s) := by
  constructor
  · rintro hs ⟨h12, h13, h14, h23, h24, h34⟩
    obtain ⟨s', hs', -, -, -, -, hget⟩ := GoMap.get_update K s o hs
    refine ⟨s', hs', ?_, ?_, ?_, ?_⟩
    · intro hz
      rw [hget]
      simp [offer, hz, h12, h13, h14]
    · intro hz
      rw [hget]
      simp [offer, hz, Ne.symm h12, h23, h24]
    · intro hz
      rw [hget]
      simp [offer, hz, Ne.symm h13, Ne.symm h23, h34]
    · intro hz
      rw [hget]
      simp [offer, hz, Ne.symm h14, Ne.symm h24, Ne.symm h34]
  · intro hb hp hm hn hr
    simp [UpdateSpecFromOptions, updateAnnotations, guardedAssign, hb, hp, hm, hn, hr,
      rangeLoop, bind, Except.bind]

/-- Witness of C7: options with nothing set return the spec `{a: 9}` as it
is, and leave a processor count to the defaults when only that field is
zero. -/
theorem UpdateSpecFromOptions_zero_fields_witness :
    (∃ s', UpdateSpecFromOptions sampleKeys specA9 (some optsDefaultsAB) = .ok s' ∧
      GoMap.get s'.Annotations "processor-count" = none) ∧
    UpdateSpecFromOptions sampleKeys specA9 (some optsZero) = .ok specA9 := by
  obtain ⟨s', hs', -, h, -, -⟩ :=
    (UpdateSpecFromOptions_zero_fields sampleKeys specA9 optsDefaultsAB).1 rfl (by decide)
  exact ⟨⟨s', hs', (h rfl).trans (by decide)⟩,
    (UpdateSpecFromOptions_zero_fields sampleKeys specA9 optsZero).2 rfl rfl rfl rfl rfl⟩

/-- C8: only the annotation map is written.  For every spec and every
options value, nil or not, a spec that `UpdateSpecFromOptions` returns has the
Linux descriptor, the Windows descriptor and all remaining fields of the
input; and the call does return a spec when the options are nil or the
annotation map is non-nil. -/
theorem UpdateSpecFromOptions_frame {L W R : Type} (K : AnnotationKeys)
    (s : Spec L W R) (opts : Option Options) :
    (∀ s', UpdateSpecFromOptions K s opts = .ok s' →
      s'.Linux = s.Linux ∧ s'.Windows = s.Windows ∧ s'.rest = s.rest) ∧
    (opts = none ∨ s.Annotations.isSome → ∃ s', UpdateSpecFromOptions K s opts = .ok s') := by
  constructor
  · intro s' h
    cases opts with
    | none =>
      simp only [UpdateSpecFromOptions, Except.ok.injEq] at h
      subst h
      exact ⟨rfl, rfl, rfl⟩
    | some o =>
      simp only [UpdateSpecFromOptions] at h
      split at h
      · exact absurd h (by simp)
      · simp only [Except.ok.injEq] at h
        subst h
        exact ⟨rfl, rfl, rfl⟩
  · rintro (h | h)
    · subst h
      exact ⟨s, rfl⟩
    · cases opts with
      | none => exact ⟨s, rfl⟩
      | some o =>
        obtain ⟨s', hs', -⟩ := GoMap.get_update K s o h
        exact ⟨s', hs'⟩

/-- Witness of C8: the Linux-guest spec `{a: 9}` keeps its descriptors under
options that write four annotations. -/
theorem UpdateSpecFromOptions_frame_witness :
    ∃ s', UpdateSpecFromOptions sampleKeys specA9 (some optsFull) = .ok s' ∧
      s'.Linux = some () ∧ s'.Windows = none ∧ s'.rest = () := by
  obtain ⟨s', hs'⟩ := (UpdateSpecFromOptions_frame sampleKeys specA9 (some optsFull)).2 (Or.inr rfl)
  exact ⟨s', hs', (UpdateSpecFromOptions_frame sampleKeys specA9 (some optsFull)).1 s' hs'⟩

/-- C16: a typed option field takes precedence over the default container
annotations for its key.  With pairwise different annotation keys and a non-nil
annotation map, a fixed key that the spec lacks reads, in the returned map, the
value of its typed field when that field is non-zero or non-empty, whatever the
defaults hold for the key, and what the defaults hold for the key when the
field is zero or empty. -/
theorem UpdateSpecFromOptions_typed_precedence {L W R : Type} (K : AnnotationKeys)
    (s : Spec L W R) (o : Options) (hs : s.Annotations.isSome) (hK : K.Distinct) :
    ∃ s', UpdateSpecFromOptions K s (some o) = .ok s' ∧
      (GoMap.get s.Annotations K.BootFilesRootPath = none →
        (o.BootFilesRootPath ≠ "" →
          GoMap.get s'.Annotations K.BootFilesRootPath = some o.BootFilesRootPath) ∧
        (o.BootFilesRootPath = "" → GoMap.get s'.Annotations K.BootFilesRootPath =
          GoMap.get o.DefaultContainerAnnotations K.BootFilesRootPath)) ∧
      (GoMap.get s.Annotations K.ProcessorCount = none →
        (o.VmProcessorCount ≠ 0 →
          GoMap.get s'.Annotations K.ProcessorCount = some (FormatInt o.VmProcessorCount)) ∧
        (o.VmProcessorCount = 0 → GoMap.get s'.Annotations K.ProcessorCount =
          GoMap.get o.DefaultContainerAnnotations K.ProcessorCount)) ∧
      (GoMap.get s.Annotations K.MemorySizeInMB = none →
        (o.VmMemorySizeInMb ≠ 0 →
          GoMap.get s'.Annotations K.MemorySizeInMB = some (FormatInt o.VmMemorySizeInMb)) ∧
        (o.VmMemorySizeInMb = 0 → GoMap.get s'.Annotations K.MemorySizeInMB =
          GoMap.get o.DefaultContainerAnnotations K.MemorySizeInMB)) ∧
      (GoMap.get s.Annotations K.NetworkConfigProxy = none →
        (o.NCProxyAddr ≠ "" →
          GoMap.get s'.Annotations K.NetworkConfigProxy = some o.NCProxyAddr) ∧
        (o.NCProxyAddr = "" → GoMap.get s'.Annotations K.NetworkConfigProxy =
          GoMap.get o.DefaultContainerAnnotations K.NetworkConfigProxy)) := by
  obtain ⟨s', hs', -, -, -, -, hget⟩ := GoMap.get_update K s o hs
  obtain ⟨h12, h13, h14, h23, h24, h34⟩ := hK
  refine ⟨s', hs', ?_, ?_, ?_, ?_⟩
  · intro habs
    constructor
    · intro hn
      rw [hget, habs]
      simp [offer, hn]
    · intro hz
      rw [hget, habs]
      simp [offer, hz, h12, h13, h14]
  · intro habs
    constructor
    · intro hn
      rw [hget, habs]
      simp [offer, hn, Ne.symm h12]
    · intro hz
      rw [hget, habs]
      simp [offer, hz, Ne.symm h12, h23, h24]
  · intro habs
    constructor
    · intro hn
      rw [hget, habs]
      simp [offer, hn, Ne.symm h13, Ne.symm h23]
    · intro hz
      rw [hget, habs]
      simp [offer, hz, Ne.symm h13, Ne.symm h23, h34]
  · intro habs
    constructor
    · intro hn
      rw [hget, habs]
      simp [offer, hn, Ne.symm h14, Ne.symm h24, Ne.symm h34]
    · intro hz
      rw [hget, habs]
      simp [offer, hz, Ne.symm h14, Ne.symm h24, Ne.symm h34]

/-- Witness of C16: the typed processor count 8 wins over the default `"4"`,
and with a zero typed field the default `"4"` is used. -/
theorem UpdateSpecFromOptions_typed_precedence_witness :
    (∃ s', UpdateSpecFromOptions sampleKeys specEmpty (some optsFull) = .ok s' ∧
      GoMap.get optsFull.DefaultContainerAnnotations "processor-count" = some "4" ∧
      GoMap.get s'.Annotations "processor-count" = some "8") ∧
    (∃ s', UpdateSpecFromOptions sampleKeys specEmpty (some optsCountDefault) = .ok s' ∧
      GoMap.get s'.Annotations "processor-count" = some "4") := by
  obtain ⟨s₁, h₁, -, hc₁, -, -⟩ :=
    UpdateSpecFromOptions_typed_precedence sampleKeys specEmpty optsFull rfl (by decide)
  obtain ⟨s₂, h₂, -, hc₂, -, -⟩ :=
    UpdateSpecFromOptions_typed_precedence sampleKeys specEmpty optsCountDefault rfl (by decide)
  exact ⟨⟨s₁, h₁, by decide, ((hc₁ (by decide)).1 (by decide)).trans (by decide)⟩,
    ⟨s₂, h₂, ((hc₂ (by decide)).2 (by decide)).trans (by decide)⟩⟩

/-- C17: idempotence.  For a spec with a non-nil annotation map and every
options value, nil or not, applying `UpdateSpecFromOptions` to its own result
with the same options returns the same annotation map, and the same spec
otherwise. -/
theorem UpdateSpecFromOptions_idempotent {L W R : Type} (K : AnnotationKeys)
    (s : Spec L W R) (opts : Option Options) (hs : s.Annotations.isSome) :
    ∃ s₁ s₂, UpdateSpecFromOptions K s opts = .ok s₁ ∧
      UpdateSpecFromOptions K s₁ opts = .ok s₂ ∧
      GoMap.Same s₂.Annotations s₁.Annotations ∧
      s₂.Linux = s₁.Linux ∧ s₂.Windows = s₁.Windows ∧ s₂.rest = s₁.rest := by
  cases opts with
  | none => exact ⟨s, s, rfl, rfl, ⟨rfl, fun _ => rfl⟩, rfl, rfl, rfl⟩
  | some o =>
    obtain ⟨s₁, h₁, hsome₁, -, -, -, hget₁⟩ := GoMap.get_update K s o hs
    obtain ⟨s₂, h₂, hsome₂, hl, hw, hr, hget₂⟩ := GoMap.get_update K s₁ o hsome₁
    refine ⟨s₁, s₂, h₁, h₂, ⟨by rw [hsome₁, hsome₂], fun k => ?_⟩, hl, hw, hr⟩
    rw [hget₂, hget₁]
    cases GoMap.get s.Annotations k <;>
    cases offer (o.BootFilesRootPath ≠ "") K.BootFilesRootPath o.BootFilesRootPath k <;>
    cases offer (o.VmProcessorCount ≠ 0) K.ProcessorCount (FormatInt o.VmProcessorCount) k <;>
    cases offer (o.VmMemorySizeInMb ≠ 0) K.MemorySizeInMB (FormatInt o.VmMemorySizeInMb) k <;>
    cases offer (o.NCProxyAddr ≠ "") K.NetworkConfigProxy o.NCProxyAddr k <;>
    cases GoMap.get o.DefaultContainerAnnotations k <;> rfl

/-- Witness of C17: the spec `{a: 9}` under options that write four
annotations and two defaults. -/
theorem UpdateSpecFromOptions_idempotent_witness :
    ∃ s₁ s₂, UpdateSpecFromOptions sampleKeys specA9 (some optsFull) = .ok s₁ ∧
      UpdateSpecFromOptions sampleKeys s₁ (some optsFull) = .ok s₂ ∧
      GoMap.Same s₂.Annotations s₁.Annotations ∧
      s₂.Linux = s₁.Linux ∧ s₂.Windows = s₁.Windows ∧ s₂.rest = s₁.rest :=
  UpdateSpecFromOptions_idempotent sampleKeys specA9 (some optsFull) rfl

/-- C18: the exact key set of the result.  For a spec with a non-nil
annotation map and non-nil options, a key is in the returned map exactly when
it is a key of the spec, a key of the default container annotations, or one of
the four fixed keys whose typed field is non-zero or non-empty. -/
theorem UpdateSpecFromOptions_key_set {L W R : Type} (K : AnnotationKeys)
    (s : Spec L W R) (o : Options) (hs : s.Annotations.isSome) :
    ∃ s', UpdateSpecFromOptions K s (some o) = .ok s' ∧
      ∀ k, (GoMap.get s'.Annotations k).isSome ↔
        ((GoMap.get s.Annotations k).isSome ∨
          (GoMap.get o.DefaultContainerAnnotations k).isSome ∨
          (k = K.BootFilesRootPath ∧ o.BootFilesRootPath ≠ "") ∨
          (k = K.ProcessorCount ∧ o.VmProcessorCount ≠ 0) ∨
          (k = K.MemorySizeInMB ∧ o.VmMemorySizeInMb ≠ 0) ∨
          (k = K.NetworkConfigProxy ∧ o.NCProxyAddr ≠ "")) := by
  obtain ⟨s', hs', -, -, -, -, hget⟩ := GoMap.get_update K s o hs
  refine ⟨s', hs', fun k => ?_⟩
  rw [hget]
  have hoffer : ∀ (c : Prop) [Decidable c] (key v : String),
      (offer c key v k).isSome ↔ (k = key ∧ c) := by
    intro c _ key v
    unfold offer
    by_cases h : c ∧ k = key
    · simp [h]
    · rw [if_neg h]
      simp only [Option.isSome_none, Bool.false_eq_true, false_iff]
      exact fun h' => h ⟨h'.2, h'.1⟩
  have hor : ∀ a b : Option String, (a.or b).isSome ↔ (a.isSome ∨ b.isSome) := by
    intro a b
    cases a <;> simp
  simp only [hor, hoffer]
  tauto

/-- Witness of C18: the key `b` comes from the defaults, the processor-count
key from the typed field, and the key `c` from nowhere. -/
theorem UpdateSpecFromOptions_key_set_witness :
    ∃ s', UpdateSpecFromOptions sampleKeys specA9 (some optsFull) = .ok s' ∧
      (GoMap.get s'.Annotations "a").isSome ∧
      (GoMap.get s'.Annotations "processor-count").isSome ∧
      (GoMap.get s'.Annotations "memory-size-mb").isSome ∧
      ¬ (GoMap.get s'.Annotations "c").isSome := by
  obtain ⟨s', hs', h⟩ := UpdateSpecFromOptions_key_set sampleKeys specA9 optsFull rfl
  exact ⟨s', hs', (h "a").mpr (by decide), (h "processor-count").mpr (by decide),
    (h "memory-size-mb").mpr (by decide), fun hc => absurd ((h "c").mp hc) (by decide)⟩

/-- C19: safety on a nil annotation map.  For a spec whose annotation map is
nil, `UpdateSpecFromOptions` returns a spec, rather than failing with an
assignment into a nil map, exactly when the options are nil or supply nothing
to write (the four typed fields zero or empty and the defaults nil or empty);
for a spec with a non-nil annotation map it returns a spec for all options. -/
theorem UpdateSpecFromOptions_nil_map_safety {L W R : Type} (K : AnnotationKeys)
    (s : Spec L W R) (opts : Option Options) :
    (s.Annotations = none →
      ((∃ s', UpdateSpecFromOptions K s opts = .ok s') ↔
        (opts = none ∨ ∃ o, opts = some o ∧ o.BootFilesRootPath = "" ∧
          o.VmProcessorCount = 0 ∧ o.VmMemorySizeInMb = 0 ∧ o.NCProxyAddr = "" ∧
          GoMap.range o.DefaultContainerAnnotations = []))) ∧
    (s.Annotations.isSome → ∃ s', UpdateSpecFromOptions K s opts = .ok s') := by
  constructor
  · intro hnil
    cases opts with
    | none => exact ⟨fun _ => Or.inl rfl, fun _ => ⟨s, rfl⟩⟩
    | some o =>
      simp only [UpdateSpecFromOptions, hnil, false_or, Option.some.injEq, exists_eq_left',
        reduceCtorEq]
      by_cases hb : o.BootFilesRootPath = ""
      · by_cases hp : o.VmProcessorCount = 0
        · by_cases hm : o.VmMemorySizeInMb = 0
          · by_cases hn : o.NCProxyAddr = ""
            · cases hr : GoMap.range o.DefaultContainerAnnotations with
              | nil =>
                simp [updateAnnotations, guardedAssign, GoMap.get, hb, hp, hm, hn, hr,
                  rangeLoop, bind, Except.bind]
              | cons e es =>
                simp [updateAnnotations, guardedAssign, GoMap.get, GoMap.assign, hb, hp, hm, hn,
                  hr, rangeLoop, bind, Except.bind]
            · simp [updateAnnotations, guardedAssign, GoMap.get, GoMap.assign, hb, hp, hm, hn,
                bind, Except.bind]
          · simp [updateAnnotations, guardedAssign, GoMap.get, GoMap.assign, hb, hp, hm,
              bind, Except.bind]
        · simp [updateAnnotations, guardedAssign, GoMap.get, GoMap.assign, hb, hp,
            bind, Except.bind]
      · simp [updateAnnotations, guardedAssign, GoMap.get, GoMap.assign, hb,
          bind, Except.bind]
  · intro hs
    cases opts with
    | none => exact ⟨s, rfl⟩
    | some o =>
      obtain ⟨s', hs', -⟩ := GoMap.get_update K s o hs
      exact ⟨s', hs'⟩

/-- Witness of C19: on the nil map, options with nothing set return the spec
and options with a default to write end in the failure. -/
theorem UpdateSpecFromOptions_nil_map_safety_witness :
    (∃ s', UpdateSpecFromOptions sampleKeys specNil (some optsZero) = .ok s') ∧
    (¬ ∃ s', UpdateSpecFromOptions sampleKeys specNil (some optsCountDefault) = .ok s') ∧
    UpdateSpecFromOptions sampleKeys specNil (some optsCountDefault) =
      .error Panic.assignmentToEntryInNilMap ∧
    (∃ s', UpdateSpecFromOptions sampleKeys specA9 (some optsCountDefault) = .ok s') :=
  ⟨((UpdateSpecFromOptions_nil_map_safety sampleKeys specNil (some optsZero)).1 rfl).mpr
      (Or.inr ⟨optsZero, rfl, rfl, rfl, rfl, rfl, rfl⟩),
    fun h => absurd
      (((UpdateSpecFromOptions_nil_map_safety sampleKeys specNil (some optsCountDefault)).1
        rfl).mp h)
      (by
        rintro (h | ⟨o, ho, -, -, -, -, hr⟩)
        · exact absurd h (by simp)
        · cases ho
          exact absurd hr (by decide)),
    rfl,
    (UpdateSpecFromOptions_nil_map_safety sampleKeys specA9 (some optsCountDefault)).2 rfl⟩

/-! ## Properties of the permission model and the grant engine -/

theorem vmEntries_newFile (others : List ACE) (p : ACE → Bool) :
    (newFile others).dacl.filter (fun e => e.principal == vmAccountSID && p e) = [] := by
  simp only [newFile, List.filter_filter, List.filter_eq_nil_iff]
  intro e _
  cases h : e.principal == vmAccountSID <;> simp [bne, h]

theorem explicitEntry_not_mem_newFile (others : List ACE) (a : Nat) :
    explicitEntry a ∉ (newFile others).dacl := by
  simp [newFile, explicitEntry, List.mem_filter]

theorem Grant_newFile (c : AccessMasks) (encode : Nat → Nat) (others : List ACE) (m : Nat)
    (hv : c.Valid m) :
    GrantVmGroupAccessWithMask c encode (some (newFile others)) m =
      .ok { newFile others with
            dacl := (newFile others).dacl ++ [explicitEntry (encode m)] } := by
  have hnot := explicitEntry_not_mem_newFile others (encode m)
  simp only [GrantVmGroupAccessWithMask, if_pos hv, grantEntries, mergeEntries, if_neg hnot]
  simp [newFile]

theorem Grant_newFile_error (c : AccessMasks) (encode : Nat → Nat) (others : List ACE) (m : Nat)
    (hv : ¬ c.Valid m) :
    GrantVmGroupAccessWithMask c encode (some (newFile others)) m = .error .InvalidMask := by
  simp [GrantVmGroupAccessWithMask, hv]

theorem vmEntries_after_grant (others : List ACE) (a : Nat) :
    vmEntries ((newFile others).dacl ++ [explicitEntry a]) = [explicitEntry a] := by
  have h := vmEntries_newFile others (fun _ => true)
  simp only [Bool.and_true] at h
  simp [vmEntries, List.filter_append, h, explicitEntry]

theorem verify_after_grant (icacls : ACE → String) (others : List ACE) (a : Nat)
    (ps : List String)
    (h : verifyVMAccountDACLs icacls ((newFile others).dacl ++ [explicitEntry a]) ps = true) :
    ∀ p ∈ ps, p.data.isPrefixOf (icacls (explicitEntry a)).data = true := by
  intro p hp
  simp only [verifyVMAccountDACLs, List.all_eq_true] at h
  have hp' := h p hp
  rw [List.filter_append, vmEntries_newFile others] at hp'
  cases hpre : p.data.isPrefixOf (icacls (explicitEntry a)).data
  · simp [List.filter, hpre] at hp'
  · rfl

theorem fileTest_row (c : AccessMasks) (encode : Nat → Nat) (icacls : ACE → String)
    (others : List ACE) (h : fileDesiredPermissionsTest c encode icacls others = true)
    (cfg : String × Nat × List String) (hcfg : cfg ∈ filePermissionCases c) :
    c.Valid cfg.2.1 ∧
      ∀ p ∈ cfg.2.2, p.data.isPrefixOf (icacls (explicitEntry (encode cfg.2.1))).data = true := by
  simp only [fileDesiredPermissionsTest, List.all_eq_true] at h
  have hrow := h cfg hcfg
  by_cases hv : c.Valid cfg.2.1
  · rw [Grant_newFile c encode others _ hv] at hrow
    exact ⟨hv, verify_after_grant icacls others _ _ hrow⟩
  · rw [Grant_newFile_error c encode others _ hv] at hrow
    exact absurd hrow (by simp)

theorem full_and_rxw_listing (l : List Char) (hF : "(F)".data.isPrefixOf l = true)
    (hR : "(RX,W)".data.isPrefixOf l = true) : False := by
  have eF : "(F)".data = ['(', 'F', ')'] := rfl
  have eR : "(RX,W)".data = ['(', 'R', 'X', ',', 'W', ')'] := rfl
  rw [eF] at hF
  rw [eR] at hR
  match l with
  | [] => simp [List.isPrefixOf] at hF
  | [_] => simp [List.isPrefixOf] at hF
  | a :: b :: l =>
    simp only [List.isPrefixOf, Bool.and_eq_true, beq_iff_eq] at hF hR
    have h1 := hF.2.1
    have h2 := hR.2.1
    rw [← h1] at h2
    exact absurd h2 (by decide)

/-- C12, as stated, fails: no grant engine that passes the file test of the
sources has `AccessMaskAll` equal to the union of the three named bits.  The
test expects the listing `(RX,W)` for the three bits together and `(F)` for
`AccessMaskAll` on a file with one entry for the VM group. -/
theorem AccessMaskAll_union_counterexample :
    ¬ ∃ (c : AccessMasks) (encode : Nat → Nat) (icacls : ACE → String) (others : List ACE),
      fileDesiredPermissionsTest c encode icacls others = true ∧
      c.AccessMaskAll = c.AccessMaskRead ||| c.AccessMaskWrite ||| c.AccessMaskExecute := by
  rintro ⟨c, encode, icacls, others, htest, hall⟩
  have hR := (fileTest_row c encode icacls others htest
    ("ReadWriteExecute", c.AccessMaskRead ||| c.AccessMaskWrite ||| c.AccessMaskExecute,
      ["(RX,W)"]) (by simp [filePermissionCases])).2 "(RX,W)" (by simp)
  have hF := (fileTest_row c encode icacls others htest
    ("All", c.AccessMaskAll, ["(F)"]) (by simp [filePermissionCases])).2 "(F)" (by simp)
  simp only [hall] at hF
  exact full_and_rxw_listing _ hF hR

/-- C12, amended: `AccessMaskAll` is a value of its own.  For every grant
engine that passes the file test of the sources, `AccessMaskAll` differs from
the union of the three named bits, granting it on a new file leaves one entry
for the VM group, listed as `(F)`, granting the three bits together leaves one
entry listed as `(RX,W)`, and the two entries differ. -/
theorem AccessMaskAll_distinct (c : AccessMasks) (encode : Nat → Nat) (icacls : ACE → String)
    (others : List ACE) (htest : fileDesiredPermissionsTest c encode icacls others = true) :
    c.AccessMaskAll ≠ c.AccessMaskRead ||| c.AccessMaskWrite ||| c.AccessMaskExecute ∧
    (∃ o, GrantVmGroupAccessWithMask c encode (some (newFile others)) c.AccessMaskAll = .ok o ∧
      vmEntries o.dacl = [explicitEntry (encode c.AccessMaskAll)] ∧
      "(F)".data.isPrefixOf (icacls (explicitEntry (encode c.AccessMaskAll))).data = true) ∧
    (∃ o, GrantVmGroupAccessWithMask c encode (some (newFile others))
        (c.AccessMaskRead ||| c.AccessMaskWrite ||| c.AccessMaskExecute) = .ok o ∧
      vmEntries o.dacl =
        [explicitEntry (encode (c.AccessMaskRead ||| c.AccessMaskWrite ||| c.AccessMaskExecute))] ∧
      "(RX,W)".data.isPrefixOf (icacls (explicitEntry
        (encode (c.AccessMaskRead ||| c.AccessMaskWrite ||| c.AccessMaskExecute)))).data = true) ∧
    explicitEntry (encode c.AccessMaskAll) ≠
      explicitEntry (encode (c.AccessMaskRead ||| c.AccessMaskWrite ||| c.AccessMaskExecute)) := by
  obtain ⟨hvR, hR⟩ := fileTest_row c encode icacls others htest
    ("ReadWriteExecute", c.AccessMaskRead ||| c.AccessMaskWrite ||| c.AccessMaskExecute,
      ["(RX,W)"]) (by simp [filePermissionCases])
  obtain ⟨hvF, hF⟩ := fileTest_row c encode icacls others htest
    ("All", c.AccessMaskAll, ["(F)"]) (by simp [filePermissionCases])
  have hR' := hR "(RX,W)" (by simp)
  have hF' := hF "(F)" (by simp)
  refine ⟨?_, ⟨_, Grant_newFile c encode others _ hvF, vmEntries_after_grant others _, hF'⟩,
    ⟨_, Grant_newFile c encode others _ hvR, vmEntries_after_grant others _, hR'⟩, ?_⟩
  · intro hall
    simp only [hall] at hF'
    exact full_and_rxw_listing _ hF' hR'
  · intro heq
    simp only [heq] at hF'
    exact full_and_rxw_listing _ hF' hR'

/-- Witness of C12, amended: the sample masks and the sample listing pass the
file test. -/
theorem AccessMaskAll_distinct_witness :
    fileDesiredPermissionsTest sampleMasks id sampleIcacls [] = true ∧
    sampleMasks.AccessMaskAll ≠
      sampleMasks.AccessMaskRead ||| sampleMasks.AccessMaskWrite |||
        sampleMasks.AccessMaskExecute :=
  ⟨by decide, (AccessMaskAll_distinct sampleMasks id sampleIcacls [] (by decide)).1⟩

theorem mergeEntries_prefix (dacl new : List ACE) : dacl <+: mergeEntries dacl new := by
  induction new generalizing dacl with
  | nil => exact List.prefix_refl _
  | cons e es ih =>
    rw [mergeEntries]
    by_cases h : e ∈ dacl
    · rw [if_pos h]; exact ih dacl
    · rw [if_neg h]; exact (List.prefix_append dacl [e]).trans (ih _)

theorem not_mem_of_vmEntries_nil (dacl : List ACE) (h : vmEntries dacl = []) (e : ACE)
    (he : e.principal = vmAccountSID) : e ∉ dacl := by
  intro hmem
  have : e ∈ vmEntries dacl := by
    simp only [vmEntries, List.mem_filter, beq_iff_eq]
    exact ⟨hmem, he⟩
  rw [h] at this
  exact absurd this (List.not_mem_nil e)

theorem vmEntries_filterMap_inherited (encode : Nat → Nat) (dacl : List ACE) :
    vmEntries (dacl.filterMap (inheritedByFile encode)) =
      (vmEntries dacl).filterMap (inheritedByFile encode) := by
  induction dacl with
  | nil => rfl
  | cons e es ih =>
    simp only [vmEntries] at ih ⊢
    by_cases hp : e.principal = vmAccountSID <;> by_cases ho : e.objectInherit = true <;>
      simp [List.filterMap_cons, List.filter_cons, inheritedByFile, hp, ho, ih]

theorem Grant_fresh (c : AccessMasks) (encode : Nat → Nat) (o : Object) (m : Nat)
    (hv : c.Valid m) (hw : o.descriptorWritable = true) (hfresh : vmEntries o.dacl = []) :
    GrantVmGroupAccessWithMask c encode (some o) m =
      .ok { o with dacl := o.dacl ++ grantEntries encode o.isDir m } := by
  have h1 : explicitEntry (encode m) ∉ o.dacl :=
    not_mem_of_vmEntries_nil o.dacl hfresh _ rfl
  have h2 : inheritableEntry m ∉ o.dacl ++ [explicitEntry (encode m)] := by
    intro hmem
    rcases List.mem_append.mp hmem with h | h
    · exact not_mem_of_vmEntries_nil o.dacl hfresh _ rfl h
    · simp [inheritableEntry, explicitEntry] at h
  cases hd : o.isDir
  · simp [GrantVmGroupAccessWithMask, hv, hw, grantEntries, hd, mergeEntries, if_neg h1]
  · simp [GrantVmGroupAccessWithMask, hv, hw, grantEntries, hd, mergeEntries, if_neg h1,
      if_neg h2]
    exact ⟨fun h => h2 (List.mem_append_left _ h), by simp [inheritableEntry, explicitEntry]⟩

theorem vmEntries_append_fresh (dacl l : List ACE) (hfresh : vmEntries dacl = []) :
    vmEntries (dacl ++ l) = vmEntries l := by
  simp only [vmEntries, List.filter_append] at hfresh ⊢
  rw [hfresh, List.nil_append]

theorem vmEntries_newDir (others : List ACE) : vmEntries (newDir others).dacl = [] := by
  have h := vmEntries_newFile others (fun _ => true)
  simp only [Bool.and_true] at h
  exact h

theorem verify_two_lines (icacls : ACE → String) (others : List ACE) (e₁ e₂ : ACE)
    (h₁ : e₁.principal = vmAccountSID) (h₂ : e₂.principal = vmAccountSID) (p : String)
    (ps : List String)
    (h : verifyVMAccountDACLs icacls ((newDir others).dacl ++ [e₁, e₂]) ps = true)
    (hp : p ∈ ps) :
    (p.data <+: (icacls e₁).data ∧ ¬ p.data <+: (icacls e₂).data) ∨
      (¬ p.data <+: (icacls e₁).data ∧ p.data <+: (icacls e₂).data) := by
  simp only [verifyVMAccountDACLs, List.all_eq_true] at h
  have hp' := h p hp
  have hnil : (newDir others).dacl.filter (fun e =>
      e.principal == vmAccountSID && p.data.isPrefixOf (icacls e).data) = [] :=
    vmEntries_newFile others (fun e => p.data.isPrefixOf (icacls e).data)
  rw [List.filter_append, hnil] at hp'
  rw [← List.isPrefixOf_iff_prefix, ← List.isPrefixOf_iff_prefix]
  cases hb₁ : p.data.isPrefixOf (icacls e₁).data <;>
    cases hb₂ : p.data.isPrefixOf (icacls e₂).data <;>
    simp [List.filter, h₁, h₂, hb₁, hb₂] at hp' ⊢

theorem listing_explicitEntry (rights : Nat → String) (a : Nat) :
    (listing rights (explicitEntry a)).data = (rights a).data := by
  simp [listing, explicitEntry]

theorem listing_inheritableEntry (rights : Nat → String) (a : Nat) :
    (listing rights (inheritableEntry a)).data = "(OI)(CI)(IO)".data ++ (rights a).data := by
  simp [listing, inheritableEntry]

theorem directory_row (rights : Nat → String) (others : List ACE) (a b : Nat)
    (p₁ p₂ g : String)
    (hX : ¬ p₁.data <+: "(OI)(CI)(IO)".data ∧ ¬ "(OI)(CI)(IO)".data <+: p₁.data)
    (h12 : ¬ p₁.data <+: p₂.data ∧ ¬ p₂.data <+: p₁.data)
    (hp₂ : p₂.data = "(OI)(CI)(IO)".data ++ g.data)
    (h : verifyVMAccountDACLs (listing rights)
      ((newDir others).dacl ++ [explicitEntry a, inheritableEntry b]) [p₁, p₂] = true) :
    p₁.data <+: (rights a).data ∧ g.data <+: (rights b).data := by
  have h₁ := verify_two_lines (listing rights) others _ _ rfl rfl p₁ _ h (by simp)
  have h₂ := verify_two_lines (listing rights) others _ _ rfl rfl p₂ _ h (by simp)
  rw [listing_explicitEntry, listing_inheritableEntry] at h₁ h₂
  have hp₁ : p₁.data <+: (rights a).data := by
    rcases h₁ with h₁ | h₁
    · exact h₁.1
    · rcases List.prefix_or_prefix_of_prefix h₁.2 (List.prefix_append _ _) with h' | h'
      · exact absurd h' hX.1
      · exact absurd h' hX.2
  refine ⟨hp₁, ?_⟩
  rcases h₂ with h₂ | h₂
  · rcases List.prefix_or_prefix_of_prefix hp₁ h₂.1 with h' | h'
    · exact absurd h' h12.1
    · exact absurd h' h12.2
  · have := h₂.2
    rw [hp₂, List.prefix_append_right_inj] at this
    exact this

theorem directoryTest_row (c : AccessMasks) (encode : Nat → Nat) (rights : Nat → String)
    (others : List ACE) (h : directoryPermissionsTest c encode rights others = true)
    (cfg : String × Nat × List String × List String)
    (hcfg : cfg ∈ directoryPermissionCases c) :
    c.Valid cfg.2.1 ∧
      verifyVMAccountDACLs (listing rights)
        ((newDir others).dacl ++ [explicitEntry (encode cfg.2.1), inheritableEntry cfg.2.1])
        cfg.2.2.2 = true := by
  simp only [directoryPermissionsTest, List.all_eq_true] at h
  have hrow := h cfg hcfg
  by_cases hv : c.Valid cfg.2.1
  · rw [Grant_fresh c encode (newDir others) _ hv rfl (vmEntries_newDir others)] at hrow
    simp only [Bool.and_eq_true] at hrow
    exact ⟨hv, hrow.1⟩
  · have herr : GrantVmGroupAccessWithMask c encode (some (newDir others)) cfg.2.1 =
        .error .InvalidMask := by
      simp [GrantVmGroupAccessWithMask, hv]
    rw [herr] at hrow
    exact absurd hrow (by simp)

theorem directoryTest_masks_differ (c : AccessMasks) (encode : Nat → Nat)
    (rights : Nat → String) (others : List ACE)
    (h : directoryPermissionsTest c encode rights others = true)
    (name : String) (m : Nat) (f p₁ p₂ g : String)
    (hcfg : (name, m, [f], [p₁, p₂]) ∈ directoryPermissionCases c)
    (hX : ¬ p₁.data <+: "(OI)(CI)(IO)".data ∧ ¬ "(OI)(CI)(IO)".data <+: p₁.data)
    (h12 : ¬ p₁.data <+: p₂.data ∧ ¬ p₂.data <+: p₁.data)
    (hp₂ : p₂.data = "(OI)(CI)(IO)".data ++ g.data)
    (hg : ¬ p₁.data <+: g.data ∧ ¬ g.data <+: p₁.data) : encode m ≠ m := by
  obtain ⟨-, hverify⟩ := directoryTest_row c encode rights others h _ hcfg
  obtain ⟨h₁, h₂⟩ := directory_row rights others _ _ p₁ p₂ g hX h12 hp₂ hverify
  intro heq
  simp only [heq] at h₁
  rcases List.prefix_or_prefix_of_prefix h₁ h₂ with h' | h'
  · exact absurd h' hg.1
  · exact absurd h' hg.2

/-- C13, as stated, fails: no grant engine that passes the directory test of
the sources leaves, on a new directory granted `AccessMaskRead`, a
non-inheritable and an inherit-only entry for the VM group with one and the same
mask.  The test expects the rights `(R)` on the one and `(GR)` on the other. -/
theorem Grant_directory_same_mask_counterexample :
    ¬ ∃ (c : AccessMasks) (encode : Nat → Nat) (rights : Nat → String) (others : List ACE),
      directoryPermissionsTest c encode rights others = true ∧
      ∃ d a, GrantVmGroupAccessWithMask c encode (some (newDir others)) c.AccessMaskRead = .ok d ∧
        vmEntries d.dacl = [explicitEntry a, inheritableEntry a] := by
  rintro ⟨c, encode, rights, others, htest, d, a, hd, hentries⟩
  have hne := directoryTest_masks_differ c encode rights others htest
    "Read" c.AccessMaskRead "(I)(R)" "(R)" "(OI)(CI)(IO)(GR)" "(GR)"
    (by simp [directoryPermissionCases]) (by decide) (by decide) (by decide) (by decide)
  obtain ⟨hv, -⟩ := directoryTest_row c encode rights others htest
    ("Read", c.AccessMaskRead, ["(I)(R)"], ["(R)", "(OI)(CI)(IO)(GR)"])
    (by simp [directoryPermissionCases])
  rw [Grant_fresh c encode (newDir others) _ hv rfl (vmEntries_newDir others)] at hd
  simp only [Except.ok.injEq] at hd
  subst hd
  rw [show (newDir others).isDir = true from rfl] at hentries
  simp only [grantEntries, if_true, vmEntries_append_fresh _ _ (vmEntries_newDir others)]
    at hentries
  simp [vmEntries, explicitEntry, inheritableEntry] at hentries
  exact hne (hentries.1.trans hentries.2.symm)

/-- C13, amended: the shape of the entries by kind of object.  For a valid mask
and an object whose descriptor can be updated, the grant succeeds, keeps the
kind of the object and keeps the existing entries in place.  On an object
without entries for the VM group `S-1-5-83-0`, a directory then has exactly two
entries for the group: a non-inheritable one with the rights of the object that
the mask translates to, and an object-inherit, container-inherit, inherit-only
one with the requested mask itself; a file inside the directory shows one entry
for the group, marked inherited, with the translated rights; a plain file has
exactly one entry for the group, non-inheritable, with the translated rights.
For every grant engine that passes the directory test of the sources, the
translated rights differ from the requested mask for the three named bits and
all their combinations, so that the two entries of a directory do not carry the
same mask. -/
theorem GrantVmGroupAccessWithMask_entry_shapes (c : AccessMasks) (encode : Nat → Nat) :
    (∀ (o : Object) (m : Nat), c.Valid m → o.descriptorWritable = true →
      ∃ o', GrantVmGroupAccessWithMask c encode (some o) m = .ok o' ∧
        o'.isDir = o.isDir ∧ o.dacl <+: o'.dacl ∧
        (vmEntries o.dacl = [] →
          (o.isDir = true →
            vmEntries o'.dacl =
              [ { principal := "S-1-5-83-0", mask := encode m, objectInherit := false,
                  containerInherit := false, inheritOnly := false, inherited := false },
                { principal := "S-1-5-83-0", mask := m, objectInherit := true,
                  containerInherit := true, inheritOnly := true, inherited := false } ] ∧
            vmEntries (fileInside encode o') =
              [ { principal := "S-1-5-83-0", mask := encode m, objectInherit := false,
                  containerInherit := false, inheritOnly := false, inherited := true } ]) ∧
          (o.isDir = false →
            vmEntries o'.dacl =
              [ { principal := "S-1-5-83-0", mask := encode m, objectInherit := false,
                  containerInherit := false, inheritOnly := false, inherited := false } ]))) ∧
    (∀ (rights : Nat → String) (others : List ACE),
      directoryPermissionsTest c encode rights others = true →
      encode c.AccessMaskRead ≠ c.AccessMaskRead ∧
      encode c.AccessMaskWrite ≠ c.AccessMaskWrite ∧
      encode c.AccessMaskExecute ≠ c.AccessMaskExecute ∧
      encode (c.AccessMaskRead ||| c.AccessMaskWrite) ≠ c.AccessMaskRead ||| c.AccessMaskWrite ∧
      encode (c.AccessMaskRead ||| c.AccessMaskExecute) ≠
        c.AccessMaskRead ||| c.AccessMaskExecute ∧
      encode (c.AccessMaskWrite ||| c.AccessMaskExecute) ≠
        c.AccessMaskWrite ||| c.AccessMaskExecute ∧
      encode (c.AccessMaskRead ||| c.AccessMaskWrite ||| c.AccessMaskExecute) ≠
        c.AccessMaskRead ||| c.AccessMaskWrite ||| c.AccessMaskExecute) := by
  constructor
  · intro o m hv hw
    by_cases hfresh : vmEntries o.dacl = []
    · refine ⟨_, Grant_fresh c encode o m hv hw hfresh, rfl, List.prefix_append _ _, fun _ => ?_⟩
      constructor
      · intro hdir
        constructor
        · show vmEntries (o.dacl ++ grantEntries encode o.isDir m) = _
          rw [vmEntries_append_fresh _ _ hfresh, hdir]
          rfl
        · show vmEntries ((o.dacl ++ grantEntries encode o.isDir m).filterMap
            (inheritedByFile encode)) = _
          rw [vmEntries_filterMap_inherited, vmEntries_append_fresh _ _ hfresh, hdir]
          rfl
      · intro hfile
        show vmEntries (o.dacl ++ grantEntries encode o.isDir m) = _
        rw [vmEntries_append_fresh _ _ hfresh, hfile]
        rfl
    · refine ⟨{ o with dacl := mergeEntries o.dacl (grantEntries encode o.isDir m) }, ?_, rfl,
        mergeEntries_prefix _ _, fun h => absurd h hfresh⟩
      simp [GrantVmGroupAccessWithMask, hv, hw]
  · intro rights others htest
    have row := directoryTest_masks_differ c encode rights others htest
    refine ⟨row "Read" _ "(I)(R)" "(R)" "(OI)(CI)(IO)(GR)" "(GR)"
        (by simp [directoryPermissionCases]) (by decide) (by decide) (by decide) (by decide),
      row "Write" _ "(I)(W,Rc)" "(W,Rc)" "(OI)(CI)(IO)(GW)" "(GW)"
        (by simp [directoryPermissionCases]) (by decide) (by decide) (by decide) (by decide),
      row "Execute" _ "(I)(Rc,S,X,RA)" "(Rc,S,X,RA)" "(OI)(CI)(IO)(GE)" "(GE)"
        (by simp [directoryPermissionCases]) (by decide) (by decide) (by decide) (by decide),
      row "ReadWrite" _ "(I)(R,W)" "(R,W)" "(OI)(CI)(IO)(GR,GW)" "(GR,GW)"
        (by simp [directoryPermissionCases]) (by decide) (by decide) (by decide) (by decide),
      row "ReadExecute" _ "(I)(RX)" "(RX)" "(OI)(CI)(IO)(GR,GE)" "(GR,GE)"
        (by simp [directoryPermissionCases]) (by decide) (by decide) (by decide) (by decide),
      row "WriteExecute" _ "(I)(W,Rc,X,RA)" "(W,Rc,X,RA)" "(OI)(CI)(IO)(GW,GE)" "(GW,GE)"
        (by simp [directoryPermissionCases]) (by decide) (by decide) (by decide) (by decide),
      row "ReadWriteExecute" _ "(I)(RX,W)" "(RX,W)" "(OI)(CI)(IO)(GR,GW,GE)" "(GR,GW,GE)"
        (by simp [directoryPermissionCases]) (by decide) (by decide) (by decide) (by decide)⟩

/-- Witness of C13, amended: the sample masks, translation and printing pass
the directory test; read access on a new directory leaves two entries with
different masks and one inherited entry on a file inside, and one entry on a
new file. -/
theorem GrantVmGroupAccessWithMask_entry_shapes_witness :
    directoryPermissionsTest sampleMasks sampleEncode sampleRights [] = true ∧
    sampleEncode sampleMasks.AccessMaskRead ≠ sampleMasks.AccessMaskRead ∧
    (∃ o', GrantVmGroupAccessWithMask sampleMasks sampleEncode (some (newDir [])) 0x80000000 =
        .ok o' ∧
      vmEntries o'.dacl = [explicitEntry 0x8000, inheritableEntry 0x80000000] ∧
      (vmEntries (fileInside sampleEncode o')).length = 1) ∧
    (∃ o', GrantVmGroupAccessWithMask sampleMasks sampleEncode (some (newFile [])) 0x80000000 =
        .ok o' ∧
      vmEntries o'.dacl = [explicitEntry 0x8000]) := by
  have h := GrantVmGroupAccessWithMask_entry_shapes sampleMasks sampleEncode
  obtain ⟨d, hd, -, -, hshape⟩ := h.1 (newDir []) 0x80000000 (by decide) rfl
  obtain ⟨f, hf, -, -, hfshape⟩ := h.1 (newFile []) 0x80000000 (by decide) rfl
  have h1 := (hshape rfl).1 rfl
  have h2 := (hfshape rfl).2 rfl
  exact ⟨by decide, (h.2 sampleRights [] (by decide)).1,
    ⟨d, hd, by rw [h1.1]; rfl, by rw [h1.2]; rfl⟩, ⟨f, hf, by rw [h2]; rfl⟩⟩

/-! ## Properties of the options resolution -/

theorem GoMap.get_of_range_nil (a : GoMap) (h : GoMap.range a = []) (k : String) :
    GoMap.get a k = none := by
  rw [GoMap.get_eq_lookup_range, h]
  rfl

theorem resolveCommon_empty (policy : MalformedPolicy) (K : UVMAnnotationKeys) (a : GoMap)
    (base : UVMOptions) (h : GoMap.range a = []) : resolveCommon policy K a base = .ok base := by
  simp [resolveCommon, annotationNumber, annotationBool, annotationString,
    GoMap.get_of_range_nil a h, bind, Except.bind, pure, Except.pure]

theorem resolveCommon_common (policy : MalformedPolicy) (K : UVMAnnotationKeys) (a : GoMap)
    (base : UVMOptions) (p g : Nat) (c : String)
    (hp : GoMap.get a K.ProcessorCount = some (decimalString p))
    (hg : GoMap.get a K.MemoryLowMMIOGapInMB = some (decimalString g))
    (hc : GoMap.get a K.CPUGroupID = some c)
    (hw : GoMap.get a K.DisableWritableFileShares = some "true")
    (hmem : policy = .keepDefault ∨
      ∀ v, GoMap.get a K.MemorySizeInMB = some v → (parseUint v.data).isSome = true) :
    ∃ o, resolveCommon policy K a base = .ok o ∧ o.ProcessorCount = p ∧
      o.LowMMIOGapInMB = g ∧ o.CPUGroupID = c ∧ o.NoWritableFileShares = true := by
  have hmem' : ∃ n,
      annotationNumber policy a K.MemorySizeInMB base.MemorySizeInMB = .ok n := by
    unfold annotationNumber
    cases hm : GoMap.get a K.MemorySizeInMB with
    | none => exact ⟨_, rfl⟩
    | some v =>
      cases hparse : parseUint v.data with
      | some n => exact ⟨n, by simp [hparse]⟩
      | none =>
        rcases hmem with hpol | hwf
        · subst hpol
          exact ⟨base.MemorySizeInMB, by simp [hparse, MalformedPolicy.outcome]⟩
        · have := hwf v hm
          rw [hparse] at this
          exact absurd this (by simp)
  obtain ⟨n, hn⟩ := hmem'
  have hpc : annotationNumber policy a K.ProcessorCount base.ProcessorCount = .ok p := by
    simp [annotationNumber, hp, decimalString, parseUint_formatUint]
  have hgap :
      annotationNumber policy a K.MemoryLowMMIOGapInMB base.LowMMIOGapInMB = .ok g := by
    simp [annotationNumber, hg, decimalString, parseUint_formatUint]
  have hnw : annotationBool policy a K.DisableWritableFileShares base.NoWritableFileShares =
      .ok true := by
    simp [annotationBool, hw]
  have key : resolveCommon policy K a base = .ok
      { base with
        ProcessorCount := p
        MemorySizeInMB := n
        LowMMIOGapInMB := g
        CPUGroupID := annotationString a K.CPUGroupID base.CPUGroupID
        NoWritableFileShares := true
        BootFilesRootPath := annotationString a K.BootFilesRootPath base.BootFilesRootPath
        NetworkConfigProxy :=
          annotationString a K.NetworkConfigProxy base.NetworkConfigProxy } := by
    simp only [resolveCommon, hpc, hn, hgap, hnw, bind, Except.bind, pure, Except.pure]
  exact ⟨_, key, rfl, rfl, by simp [annotationString, hc], rfl⟩

/-- C14: the defaults are left untouched when nothing is configured.  For
every identifier and owner, on a spec whose annotation map is empty,
`SpecToUVMCreateOpts` returns the value of `NewDefaultOptionsLCOW(identifier,
owner)` for a Linux-guest spec and the value of
`NewDefaultOptionsWCOW(identifier, owner)` for a Windows Hyper-V spec, equal in
every field, the output handler creator included; this holds whatever the
resolution does with malformed values. -/
theorem SpecToUVMCreateOpts_defaults {L HV R Handler RestL RestW : Type}
    (policy : MalformedPolicy) (D : DefaultsProvider Handler RestL RestW)
    (K : UVMAnnotationKeys) (s : Spec L (specs.Windows HV) R) (id owner : String)
    (hempty : GoMap.range s.Annotations = []) :
    (s.Linux.isSome = true →
      SpecToUVMCreateOpts policy D K s id owner =
        .ok (.inl (D.NewDefaultOptionsLCOW id owner))) ∧
    (s.Linux = none → (s.Windows.bind (fun w => w.HyperV)).isSome = true →
      SpecToUVMCreateOpts policy D K s id owner =
        .ok (.inr (D.NewDefaultOptionsWCOW id owner))) := by
  constructor
  · intro hl
    simp [SpecToUVMCreateOpts, hl, resolveCommon_empty policy K _ _ hempty]
  · intro hl hw
    simp [SpecToUVMCreateOpts, hl, hw, resolveCommon_empty policy K _ _ hempty]

/-- Witness of C14: the two specs of the default tests. -/
theorem SpecToUVMCreateOpts_defaults_witness :
    SpecToUVMCreateOpts .reject sampleDefaults sampleUVMKeys specDefaultLCOW "test" "" =
      .ok (.inl (sampleDefaults.NewDefaultOptionsLCOW "test" "")) ∧
    SpecToUVMCreateOpts .reject sampleDefaults sampleUVMKeys specDefaultWCOW "test" "" =
      .ok (.inr (sampleDefaults.NewDefaultOptionsWCOW "test" "")) :=
  ⟨(SpecToUVMCreateOpts_defaults .reject sampleDefaults sampleUVMKeys specDefaultLCOW
      "test" "" rfl).1 rfl,
    (SpecToUVMCreateOpts_defaults .reject sampleDefaults sampleUVMKeys specDefaultWCOW
      "test" "" rfl).2 rfl rfl⟩

/-- C15: common annotations resolve identically for both guest families.  For
every spec that is Linux-guest or Windows Hyper-V and whose annotations set the
processor count to the decimal string of `p`, the low-MMIO gap to the decimal
string of `g`, the CPU group to `c` and the writable-file-shares flag to
`"true"`, `SpecToUVMCreateOpts` succeeds and the common options of the result
have these four values.  This holds for every such spec when the resolution
keeps the default on a malformed value, and, when it rejects malformed values,
for every such spec whose memory-size annotation is absent or a decimal
number. -/
theorem SpecToUVMCreateOpts_common {L HV R Handler RestL RestW : Type}
    (policy : MalformedPolicy) (D : DefaultsProvider Handler RestL RestW)
    (K : UVMAnnotationKeys) (s : Spec L (specs.Windows HV) R) (id owner : String)
    (p g : Nat) (c : String)
    (hfam : s.Linux.isSome = true ∨ (s.Windows.bind (fun w => w.HyperV)).isSome = true)
    (hp : GoMap.get s.Annotations K.ProcessorCount = some (decimalString p))
    (hg : GoMap.get s.Annotations K.MemoryLowMMIOGapInMB = some (decimalString g))
    (hc : GoMap.get s.Annotations K.CPUGroupID = some c)
    (hw : GoMap.get s.Annotations K.DisableWritableFileShares = some "true")
    (hmem : policy = .keepDefault ∨
      ∀ v, GoMap.get s.Annotations K.MemorySizeInMB = some v →
        (parseUint v.data).isSome = true) :
    ∃ r, SpecToUVMCreateOpts policy D K s id owner = .ok r ∧
      (commonOptions r).ProcessorCount = p ∧ (commonOptions r).LowMMIOGapInMB = g ∧
      (commonOptions r).CPUGroupID = c ∧ (commonOptions r).NoWritableFileShares = true := by
  by_cases hl : s.Linux.isSome = true
  · obtain ⟨o, ho, h1, h2, h3, h4⟩ := resolveCommon_common policy K s.Annotations
      (D.NewDefaultOptionsLCOW id owner).Options p g c hp hg hc hw hmem
    exact ⟨.inl { D.NewDefaultOptionsLCOW id owner with Options := o },
      by simp [SpecToUVMCreateOpts, hl, ho], h1, h2, h3, h4⟩
  · have hv : (s.Windows.bind (fun w => w.HyperV)).isSome = true := by
      rcases hfam with h | h
      · exact absurd h hl
      · exact h
    obtain ⟨o, ho, h1, h2, h3, h4⟩ := resolveCommon_common policy K s.Annotations
      (D.NewDefaultOptionsWCOW id owner).Options p g c hp hg hc hw hmem
    exact ⟨.inr { D.NewDefaultOptionsWCOW id owner with Options := o },
      by simp [SpecToUVMCreateOpts, hl, hv, ho], h1, h2, h3, h4⟩

/-- Witness of C15: the annotations of the common test, `p = 8`, `g = 1024`,
`c = "1"`, on the Windows Hyper-V spec under the rejecting resolution, and on
the Linux-guest spec with a memory size that is not a number under the
resolution that keeps the default. -/
theorem SpecToUVMCreateOpts_common_witness :
    (∃ r, SpecToUVMCreateOpts .reject sampleDefaults sampleUVMKeys specCommonWCOW "test" "" =
        .ok r ∧
      (commonOptions r).ProcessorCount = 8 ∧ (commonOptions r).LowMMIOGapInMB = 1024 ∧
      (commonOptions r).CPUGroupID = "1" ∧ (commonOptions r).NoWritableFileShares = true) ∧
    (∃ r, SpecToUVMCreateOpts .keepDefault sampleDefaults sampleUVMKeys specMalformedMemory
        "test" "" = .ok r ∧
      (commonOptions r).ProcessorCount = 8 ∧ (commonOptions r).LowMMIOGapInMB = 1024 ∧
      (commonOptions r).CPUGroupID = "1" ∧ (commonOptions r).NoWritableFileShares = true) :=
  ⟨SpecToUVMCreateOpts_common .reject sampleDefaults sampleUVMKeys specCommonWCOW "test" ""
      8 1024 "1" (Or.inr rfl) (by decide) (by decide) (by decide) (by decide)
      (Or.inr (fun v hv => by
        have hnone :
            GoMap.get specCommonWCOW.Annotations sampleUVMKeys.MemorySizeInMB = none := by
          decide
        rw [hnone] at hv
        cases hv)),
    SpecToUVMCreateOpts_common .keepDefault sampleDefaults sampleUVMKeys specMalformedMemory
      "test" "" 8 1024 "1" (Or.inl rfl) (by decide) (by decide) (by decide) (by decide)
      (Or.inl rfl)⟩

/-! ## Properties of `utilityVM.Stats` -/

/-- C9: the remote backend has no statistics.  For every `utilityVM` and every
context, `Stats` ends without a run-time failure and returns the error
`vm.ErrNotSupported`, which is not the nil error. -/
theorem Stats_not_supported {UVM Statistics : Type} (uvm : Option UVM) (ctx : Context) :
    ∃ r : Option Statistics × error,
      utilityVM.Stats uvm ctx = .ok r ∧ r.2 = vm.ErrNotSupported ∧ r.2 ≠ none :=
  ⟨(none, vm.ErrNotSupported), rfl, rfl, by simp [vm.ErrNotSupported]⟩

/-- C10, as stated, fails: called with a context that is already cancelled,
`Stats` returns `vm.ErrNotSupported`, which is not a cancellation error. -/
theorem Stats_cancelled_counterexample :
    IsCancellation cancelledCtx.Err ∧
    (utilityVM.Stats (some ()) cancelledCtx : Except Panic (Option Unit × error)) =
      .ok (none, vm.ErrNotSupported) ∧
    ¬ IsCancellation vm.ErrNotSupported :=
  ⟨by decide, rfl, by decide⟩

/-- C10, amended: `Stats` does not consult its context.  Called with a context
that is already cancelled it returns at once, with no call left pending, the
pair of a nil statistics pointer and `vm.ErrNotSupported`, as it does for a
live context. -/
theorem Stats_ignores_cancellation {UVM Statistics : Type} (uvm : Option UVM) (ctx : Context)
    (_hc : IsCancellation ctx.Err) :
    (utilityVM.Stats uvm ctx : Except Panic (Option Statistics × error)) =
        .ok (none, vm.ErrNotSupported) ∧
      (utilityVM.Stats uvm ctx : Except Panic (Option Statistics × error)) =
        utilityVM.Stats uvm { Err := none } :=
  ⟨rfl, rfl⟩

/-- Witness of C10, amended: the cancelled context. -/
theorem Stats_ignores_cancellation_witness :
    IsCancellation cancelledCtx.Err ∧
    (utilityVM.Stats (some ()) cancelledCtx : Except Panic (Option Unit × error)) =
        .ok (none, vm.ErrNotSupported) ∧
      (utilityVM.Stats (some ()) cancelledCtx : Except Panic (Option Unit × error)) =
        utilityVM.Stats (some ()) { Err := none } :=
  ⟨by decide, Stats_ignores_cancellation (some ()) cancelledCtx (by decide)⟩

end Hcsshim
